import Mathlib

/-! # scmpc: preferences resolution (`src/preferences.c`, `src/preferences.h`)

A shallow embedding of the configuration resolution code of scmpc.

* C strings are Lean strings; `strncmp` works on their character lists.
* The process-wide `prefs` structure is passed explicitly.
* The libraries the code calls (libconfuse, glib option parsing, libc) are
  modelled through the small interface the code uses; the file system, the
  environment and the compile-time macros are fields of `World`.
-/

set_option autoImplicit false

namespace Scmpc

/-! ## Log levels and the log-level decoder -/

/-- The log levels of `GLogLevelFlags` (glib). -/
inductive GLogLevelFlags where
  | G_LOG_LEVEL_ERROR
  | G_LOG_LEVEL_CRITICAL
  | G_LOG_LEVEL_WARNING
  | G_LOG_LEVEL_MESSAGE
  | G_LOG_LEVEL_INFO
  | G_LOG_LEVEL_DEBUG
  deriving DecidableEq, Repr, Inhabited

open GLogLevelFlags

/-- The libc function `strncmp(s1, s2, n)`: compares at most `n` characters,
stopping where a string ends; the result is zero, or the difference of the
first two characters that differ (the end of a string counts as 0). -/
def strncmp : List Char → List Char → Nat → Int
  | _, _, 0 => 0
  | [], [], _ + 1 => 0
  | [], b :: _, _ + 1 => 0 - (b.toNat : Int)
  | a :: _, [], _ + 1 => (a.toNat : Int)
  | a :: as, b :: bs, n + 1 =>
    if a = b then strncmp as bs n else (a.toNat : Int) - (b.toNat : Int)

/-- The decoder `cf_log_level(cfg, opt, value, result)`: `result` is the
content of the slot the level is written to; the function returns its return
code and the content of the slot afterwards. -/
def cf_log_level (value : String) (result : GLogLevelFlags) : Int × GLogLevelFlags :=
  if strncmp value.toList "none".toList 4 = 0 then
    (0, G_LOG_LEVEL_ERROR)
  else if strncmp value.toList "error".toList 5 = 0 then
    (0, G_LOG_LEVEL_ERROR)
  else if strncmp value.toList "warning".toList 7 = 0 then
    (0, G_LOG_LEVEL_WARNING)
  else if strncmp value.toList "info".toList 4 = 0 then
    (0, G_LOG_LEVEL_MESSAGE)
  else if strncmp value.toList "debug".toList 5 = 0 then
    (0, G_LOG_LEVEL_DEBUG)
  else
    (-1, result)

/-- Conversion of a C integer to `gint` (32 bits, two's complement): the
value wrapped into `-2 ^ 31 .. 2 ^ 31 - 1`. -/
def to_gint (v : Int) : Int := (v + 2147483648) % 4294967296 - 2147483648

/-- The validator `cf_validate_num(cfg, opt)`; `opt` is the `long` that
`cfg_opt_getnint(opt, 0)` yields for the option being validated, which the
function stores in the `gint value` before the test. -/
def cf_validate_num (opt : Int) : Int :=
  let value := to_gint opt
  if value < 0 then -1 else 0

/-! ## The settings structure (`preferences.h`) -/

/-- The global `prefs` of `preferences.h`. A `gchar *` field is `none` when it
is `NULL`; `gushort` and `guint` fields hold natural numbers below `2 ^ 16`
and `2 ^ 32` once they have been assigned. -/
structure Prefs where
  mpd_hostname : Option String
  mpd_port : Nat
  mpd_timeout : Nat
  mpd_password : Option String
  fork : Bool
  log_level : GLogLevelFlags
  config_file : Option String
  log_file : Option String
  pid_file : Option String
  as_username : Option String
  as_password : Option String
  as_password_hash : Option String
  cache_file : Option String
  queue_length : Nat
  cache_interval : Nat
  deriving DecidableEq, Repr

/-- Conversion of a C integer to `gushort` (an assignment to `mpd_port` or
`mpd_timeout`): the value modulo `2 ^ 16`. -/
def to_gushort (v : Int) : Nat := (v % 65536).toNat

/-- Conversion of a C integer to `guint` (an assignment to `queue_length` or
`cache_interval`): the value modulo `2 ^ 32`. -/
def to_guint (v : Int) : Nat := (v % 4294967296).toNat

/-! ## libconfuse: the schema of `parse_config_file` and file parsing -/

/-- The option values held by the `cfg_t` that `parse_config_file` builds from
`opts`, `mpd_opts` and `as_opts`. -/
structure Cfg where
  log_level : GLogLevelFlags
  log_file : String
  pid_file : String
  cache_file : String
  queue_length : Int
  cache_interval : Int
  mpd_host : String
  mpd_port : Int
  mpd_timeout : Int
  mpd_interval : Int
  mpd_password : String
  as_username : String
  as_password : String
  as_password_hash : String
  deriving DecidableEq, Repr

/-- The state after `cfg_init(opts, CFGF_NONE)`: every option has the default
of its `CFG_STR`, `CFG_INT` or `CFG_INT_CB` entry. -/
def cfg_init : Cfg :=
  { log_level := G_LOG_LEVEL_ERROR
    log_file := "/var/log/scmpc.log"
    pid_file := "/var/run/scmpc.pid"
    cache_file := "/var/lib/scmpc/scmpc.cache"
    queue_length := 500
    cache_interval := 10
    mpd_host := "localhost"
    mpd_port := 6600
    mpd_timeout := 5
    mpd_interval := 10
    mpd_password := ""
    as_username := ""
    as_password := ""
    as_password_hash := "" }

/-- One assignment of a syntactically valid config file: a key of the schema
with a value of the key's type (`mpd_*` keys stand in the `mpd` section,
`as_*` keys in the `audioscrobbler` section). -/
inductive Setting where
  | log_level (value : String)
  | log_file (value : String)
  | pid_file (value : String)
  | cache_file (value : String)
  | queue_length (value : Int)
  | cache_interval (value : Int)
  | mpd_host (value : String)
  | mpd_port (value : Int)
  | mpd_timeout (value : Int)
  | mpd_interval (value : Int)
  | mpd_password (value : String)
  | as_username (value : String)
  | as_password (value : String)
  | as_password_hash (value : String)
  deriving DecidableEq, Repr

/-- What libconfuse does with one assignment: `log_level` goes through the
callback `cf_log_level` (`CFG_INT_CB`), the four options given a validator by
`cfg_set_validate_func` go through `cf_validate_num`; a non-zero return of
either aborts the parse (`none`). -/
def cfg_setopt (cfg : Cfg) : Setting → Option Cfg
  | .log_level v =>
    let r := cf_log_level v cfg.log_level
    if r.1 ≠ 0 then none else some { cfg with log_level := r.2 }
  | .log_file v => some { cfg with log_file := v }
  | .pid_file v => some { cfg with pid_file := v }
  | .cache_file v => some { cfg with cache_file := v }
  | .queue_length v =>
    if cf_validate_num v ≠ 0 then none else some { cfg with queue_length := v }
  | .cache_interval v =>
    if cf_validate_num v ≠ 0 then none else some { cfg with cache_interval := v }
  | .mpd_host v => some { cfg with mpd_host := v }
  | .mpd_port v =>
    if cf_validate_num v ≠ 0 then none else some { cfg with mpd_port := v }
  | .mpd_timeout v =>
    if cf_validate_num v ≠ 0 then none else some { cfg with mpd_timeout := v }
  | .mpd_interval v => some { cfg with mpd_interval := v }
  | .mpd_password v => some { cfg with mpd_password := v }
  | .as_username v => some { cfg with as_username := v }
  | .as_password v => some { cfg with as_password := v }
  | .as_password_hash v => some { cfg with as_password_hash := v }

/-- The assignments of a file, applied in order; the first one that is
rejected aborts the parse. -/
def cfg_setopts : Cfg → List Setting → Option Cfg
  | cfg, [] => some cfg
  | cfg, s :: rest =>
    match cfg_setopt cfg s with
    | none => none
    | some cfg1 => cfg_setopts cfg1 rest

/-- What a path names on disk: nothing that can be opened, a file with a
syntax error, or a syntactically valid file with its assignments. -/
inductive FileState where
  | missing
  | malformed
  | text (settings : List Setting)
  deriving DecidableEq, Repr

/-- Return code `CFG_SUCCESS` of `cfg_parse`. -/
def CFG_SUCCESS : Int := 0
/-- Return code `CFG_FILE_ERROR` of `cfg_parse`. -/
def CFG_FILE_ERROR : Int := -1
/-- Return code `CFG_PARSE_ERROR` of `cfg_parse`. -/
def CFG_PARSE_ERROR : Int := 1

/-- Everything outside the program that the code reads: environment
variables, the platform home directory, the compile-time macros, the file
system, and the collaborator `kill_scmpc` (`none`: it returns, `some status`:
it ends the process with that exit status). -/
structure World where
  HOME : Option String
  MPD_HOST : Option String
  MPD_PORT : Option String
  g_get_home_dir : String
  SYSCONFDIR : String
  PACKAGE_STRING : String
  files : String → FileState
  kill_scmpc : Prefs → Option Int

/-- The libconfuse function `cfg_parse(cfg, filename)`: `CFG_FILE_ERROR` when
the file cannot be opened (the empty path never can), `CFG_PARSE_ERROR` on a
syntax error or when a callback or validator rejects a value, `CFG_SUCCESS`
with the new option values otherwise. -/
def cfg_parse (w : World) (cfg : Cfg) (filename : String) : Int × Cfg :=
  if filename = "" then (CFG_FILE_ERROR, cfg)
  else
    match w.files filename with
    | .missing => (CFG_FILE_ERROR, cfg)
    | .malformed => (CFG_PARSE_ERROR, cfg)
    | .text settings =>
      match cfg_setopts cfg settings with
      | none => (CFG_PARSE_ERROR, cfg)
      | some cfg1 => (CFG_SUCCESS, cfg1)

/-! ## Observable events -/

/-- The calls whose order the specification speaks about: parsing a
candidate, output on stdout (`puts` of a line, `g_print` of a message), the
collaborator `kill_scmpc` with `prefs.pid_file` at that moment, and a read of
`MPD_HOST` or `MPD_PORT`. Diagnostics on stderr and the lookups of `HOME`
are not recorded. -/
inductive Event where
  | cfg_parse (filename : String)
  | puts (text : String)
  | g_print (text : String)
  | kill_scmpc (pid_file : Option String)
  | getenv (name : String)
  deriving DecidableEq, Repr

/-! ## Locating and parsing the config file -/

/-- The array `config_files` that `parse_files` fills. -/
def config_files (w : World) (prefs : Prefs) : List String :=
  match prefs.config_file with
  | none =>
    let home := match w.HOME with
      | some h => h
      | none => w.g_get_home_dir
    [home ++ "/.scmpcrc", home ++ "/.scmpc/scmpc.conf", w.SYSCONFDIR ++ "/scmpc.conf"]
  | some f => [f, "", ""]

/-- The loop of `parse_files` over the entries of `config_files`: the result,
the `cfg_t` afterwards and the `cfg_parse` calls made. -/
def parse_files_loop (w : World) : List String → Cfg → Bool × Cfg × List Event
  | [], cfg => (false, cfg, [])
  | f :: rest, cfg =>
    let r := cfg_parse w cfg f
    if r.1 = CFG_PARSE_ERROR then (false, r.2, [Event.cfg_parse f])
    else if r.1 = CFG_FILE_ERROR then
      let t := parse_files_loop w rest r.2
      (t.1, t.2.1, Event.cfg_parse f :: t.2.2)
    else if r.1 = CFG_SUCCESS then (true, r.2, [Event.cfg_parse f])
    else (false, r.2, [Event.cfg_parse f])

/-- The function `parse_files(cfg)`: the result, the `cfg_t` afterwards and
the `cfg_parse` calls made. What its calls of `free_config_files` do to
Settings is given by `config_file_released` below. -/
def parse_files (w : World) (prefs : Prefs) (cfg : Cfg) : Bool × Cfg × List Event :=
  parse_files_loop w (config_files w prefs) cfg

/-- Whether `parse_files` calls `free_config_files`: it does before each
`return` inside the loop, and not when the loop runs to its end. -/
def parse_files_loop_frees (w : World) : List String → Cfg → Bool
  | [], _ => false
  | f :: rest, cfg =>
    let r := cfg_parse w cfg f
    if r.1 = CFG_PARSE_ERROR then true
    else if r.1 = CFG_FILE_ERROR then parse_files_loop_frees w rest r.2
    else if r.1 = CFG_SUCCESS then true
    else true

/-- The effect of `free_config_files` in `parse_files` on Settings: whether
the string that `prefs.config_file` points to has been released when
`parse_files` returns. With an explicit path, `config_files[0]` is
`prefs.config_file` itself (entries 1 and 2, and all entries without an
explicit path, are fresh copies), and `free_config_files` releases the three
entries; the pointer `prefs.config_file` is not changed. -/
def config_file_released (w : World) (prefs : Prefs) (cfg : Cfg) : Bool :=
  match prefs.config_file with
  | none => false
  | some _ => parse_files_loop_frees w (config_files w prefs) cfg

/-- The function `expand_tilde(path)`. -/
def expand_tilde (w : World) (path : String) : String :=
  match path.toList with
  | '~' :: rest =>
    let home := match w.HOME with
      | some h => h
      | none => w.g_get_home_dir
    home ++ String.mk rest
  | _ => path

/-- The function `parse_config_file()`: the result, `prefs` afterwards and
the `cfg_parse` calls made. A field of type `gchar *` holds the string that
was assigned to it; whether the string of `config_file` is still allocated
after the call is `config_file_released w prefs cfg_init`. -/
def parse_config_file (w : World) (prefs : Prefs) : Bool × Prefs × List Event :=
  let r := parse_files w prefs cfg_init
  if r.1 = false then (false, prefs, r.2.2)
  else
    let cfg := r.2.1
    (true,
     { prefs with
       log_level := cfg.log_level
       log_file := some (expand_tilde w cfg.log_file)
       pid_file := some (expand_tilde w cfg.pid_file)
       cache_file := some (expand_tilde w cfg.cache_file)
       queue_length := to_guint cfg.queue_length
       cache_interval := to_guint cfg.cache_interval
       mpd_hostname := some cfg.mpd_host
       mpd_port := to_gushort cfg.mpd_port
       mpd_timeout := to_gushort cfg.mpd_timeout
       mpd_password := some cfg.mpd_password
       as_username := some cfg.as_username
       as_password := some cfg.as_password
       as_password_hash := some cfg.as_password_hash
       fork := true },
     r.2.2)

/-! ## The command line -/

/-- The locals of `parse_command_line` after a successful
`g_option_context_parse`: `fork` starts `TRUE` and `--foreground`
(`G_OPTION_FLAG_REVERSE`) makes it `FALSE`; `pid_file` and `conf_file` are
`NULL` unless `--pid-file` and `--config-file` are given. -/
structure Options where
  debug : Bool
  dokill : Bool
  quiet : Bool
  version : Bool
  fork : Bool
  pid_file : Option String
  conf_file : Option String
  deriving DecidableEq, Repr

/-- How a call ends: it returns a `gboolean`, or the process exits. -/
inductive Outcome where
  | returned (value : Bool)
  | exited (status : Int)
  deriving DecidableEq, Repr

/-- The end of a call, `prefs` at that moment, the events so far, and
whether the string that `prefs.config_file` points to has been released
during the call (by `free_config_files` in `parse_files`), which leaves
`prefs.config_file` a non-NULL pointer to released memory. -/
structure Run where
  result : Outcome
  prefs : Prefs
  trace : List Event
  released : Bool

/-- The lines `--version` prints. -/
def version_text (w : World) : List Event :=
  [Event.puts w.PACKAGE_STRING,
   Event.puts "An Audioscrobbler client for MPD.",
   Event.puts "Copyright 2009-2013 Christoph Mende <mende.christoph@gmail.com>",
   Event.puts "Based on Jonathan Coome's work on scmpc"]

/-- The function `parse_command_line(argc, argv)`; `argv` is given by what
`g_option_context_parse` makes of it: an error message, when it rejects the
command line (an unknown option, a missing argument), or the option
values. -/
def parse_command_line (w : World) (argv : Except String Options) (prefs : Prefs) : Run :=
  match argv with
  | .error message => ⟨.returned false, prefs, [Event.g_print message], false⟩
  | .ok o =>
    if o.version then ⟨.exited 0, prefs, version_text w, false⟩
    else
      let prefs1 := { prefs with config_file := o.conf_file }
      let r := parse_config_file w prefs1
      let released := config_file_released w prefs1 cfg_init
      if r.1 = false then ⟨.returned false, r.2.1, r.2.2, released⟩
      else
        let prefs2 := r.2.1
        let prefs3 := match o.pid_file with
          | some p => { prefs2 with pid_file := some p }
          | none => prefs2
        if o.quiet && o.debug then ⟨.returned false, prefs3, r.2.2, released⟩
        else
          let prefs4 :=
            if o.quiet then { prefs3 with log_level := G_LOG_LEVEL_ERROR }
            else if o.debug then { prefs3 with log_level := G_LOG_LEVEL_DEBUG }
            else prefs3
          let prefs5 := if o.fork = false then { prefs4 with fork := false } else prefs4
          if o.dokill then
            match w.kill_scmpc prefs5 with
            | some status =>
              ⟨.exited status, prefs5, r.2.2 ++ [Event.kill_scmpc prefs5.pid_file], released⟩
            | none =>
              ⟨.returned true, prefs5, r.2.2 ++ [Event.kill_scmpc prefs5.pid_file], released⟩
          else ⟨.returned true, prefs5, r.2.2, released⟩

/-! ## The environment -/

/-- Largest `long` (LP64). -/
def LONG_MAX : Int := 9223372036854775807
/-- Smallest `long` (LP64). -/
def LONG_MIN : Int := -9223372036854775808

/-- The libc predicate `isspace` in the C locale. -/
def isspace (c : Char) : Bool :=
  c = ' ' || c = '\t' || c = '\n' || c = '\x0b' || c = '\x0c' || c = '\r'

/-- The value of a run of decimal digits, most significant first, continuing
from `acc`. -/
def digits_value : List Char → Nat → Nat
  | [], acc => acc
  | c :: cs, acc => digits_value cs (10 * acc + (c.toNat - '0'.toNat))

/-- The decimal digits a string starts with. -/
def leading_digits (cs : List Char) : List Char :=
  cs.takeWhile Char.isDigit

/-- The libc function `strtol(s, NULL, 10)`: white space is skipped, an
optional sign is read, then the decimal digits that follow; the result is 0
when there is no digit and is clamped to the range of `long`. -/
def strtol (s : String) : Int :=
  let cs := s.toList.dropWhile isspace
  let v : Int :=
    match cs with
    | '-' :: rest => - (digits_value (leading_digits rest) 0 : Int)
    | '+' :: rest => (digits_value (leading_digits rest) 0 : Int)
    | _ => (digits_value (leading_digits cs) 0 : Int)
  if v < LONG_MIN then LONG_MIN else if LONG_MAX < v then LONG_MAX else v

/-- The function `init_preferences(argc, argv)`. -/
def init_preferences (w : World) (argv : Except String Options) (prefs : Prefs) : Run :=
  let r := parse_command_line w argv prefs
  match r.result with
  | .returned true =>
    let prefs1 := match w.MPD_HOST with
      | some tmp => { r.prefs with mpd_password := some "", mpd_hostname := some tmp }
      | none => r.prefs
    match w.MPD_PORT with
    | some s =>
      ⟨.returned true, { prefs1 with mpd_port := to_gushort (strtol s) },
       r.trace ++ [Event.getenv "MPD_HOST", Event.getenv "MPD_PORT", Event.getenv "MPD_PORT"],
       r.released⟩
    | none =>
      ⟨.returned true, prefs1, r.trace ++ [Event.getenv "MPD_HOST", Event.getenv "MPD_PORT"],
       r.released⟩
  | _ => r

/-! ## What a file says about a key -/

/-- The value an assignment gives to `log_level`, if it is one. -/
def Setting.log_level_value : Setting → Option String
  | .log_level v => some v
  | _ => none

/-- The value an assignment gives to `pid_file`, if it is one. -/
def Setting.pid_file_value : Setting → Option String
  | .pid_file v => some v
  | _ => none

/-- The value of the last assignment of a file to the key that `g` selects;
`none` when the file does not set the key. -/
def last_value {α : Type} (g : Setting → Option α) : List Setting → Option α
  | [] => none
  | s :: rest =>
    match last_value g rest with
    | some v => some v
    | none => g s

/-- Whether a character list starts with a decimal digit. -/
def first_is_digit : List Char → Bool
  | [] => false
  | c :: _ => c.isDigit

/-- Whether a string has a leading decimal number: after optional white space
and an optional sign comes a decimal digit. -/
def has_leading_number (s : String) : Bool :=
  match s.toList.dropWhile isspace with
  | '-' :: rest => first_is_digit rest
  | '+' :: rest => first_is_digit rest
  | cs => first_is_digit cs

/-! ## Sample inputs -/

/-- A `prefs` value different from every default, as a state before
initialisation. -/
def sample_prefs : Prefs :=
  { mpd_hostname := some "old.example.net"
    mpd_port := 1
    mpd_timeout := 2
    mpd_password := some "old-secret"
    fork := false
    log_level := G_LOG_LEVEL_WARNING
    config_file := none
    log_file := some "/old/log"
    pid_file := some "/old/pid"
    as_username := some "old-user"
    as_password := none
    as_password_hash := none
    cache_file := some "/old/cache"
    queue_length := 3
    cache_interval := 4 }

/-- A file system with one valid file, at the system-wide location. -/
def sample_files (p : String) : FileState :=
  if p = "/etc/scmpc.conf" then
    .text [.log_level "debug", .pid_file "~/scmpc.pid", .mpd_port 70000]
  else if p = "/tmp/negative.conf" then
    .text [.log_file "/tmp/log", .queue_length (-1)]
  else .missing

/-- A world with `HOME` set, no `MPD_*` variable, and `sample_files`. -/
def sample_world : World :=
  { HOME := some "/home/u"
    MPD_HOST := none
    MPD_PORT := none
    g_get_home_dir := "/root"
    SYSCONFDIR := "/etc"
    PACKAGE_STRING := "scmpc 0.4.1"
    files := sample_files
    kill_scmpc := fun _ => some 0 }

/-- A command line without any option. -/
def no_options : Options :=
  { debug := false, dokill := false, quiet := false, version := false, fork := true,
    pid_file := none, conf_file := none }

/-- The options `--quiet --debug --pid-file /tmp/x.pid`. -/
def conflict_options : Options :=
  { debug := true, dokill := false, quiet := true, version := false, fork := true,
    pid_file := some "/tmp/x.pid", conf_file := none }

/-- The options `--quiet`. -/
def quiet_options : Options := { no_options with quiet := true }

/-- The options `--pid-file /tmp/x.pid`. -/
def pid_file_options : Options := { no_options with pid_file := some "/tmp/x.pid" }

/-- The sample world with `MPD_HOST=example.org`. -/
def host_world : World := { sample_world with MPD_HOST := some "example.org" }

/-- The sample world with `MPD_PORT=70000`. -/
def port_world : World := { sample_world with MPD_PORT := some "70000" }

/-- The sample world with `MPD_PORT=default`. -/
def word_port_world : World := { sample_world with MPD_PORT := some "default" }

/-! ## Keys of the schema -/

/-- The keys of the schema (`mpd_*` in the `mpd` section, `as_*` in the
`audioscrobbler` section). -/
inductive Key where
  | log_level
  | log_file
  | pid_file
  | cache_file
  | queue_length
  | cache_interval
  | mpd_host
  | mpd_port
  | mpd_timeout
  | mpd_interval
  | mpd_password
  | as_username
  | as_password
  | as_password_hash
  deriving DecidableEq, Repr

/-- The value of an option: a decoded log level, a string or an integer. -/
inductive Value where
  | level (l : GLogLevelFlags)
  | str (s : String)
  | num (n : Int)
  deriving DecidableEq, Repr

/-- The key an assignment sets. -/
def Setting.key : Setting → Key
  | .log_level _ => .log_level
  | .log_file _ => .log_file
  | .pid_file _ => .pid_file
  | .cache_file _ => .cache_file
  | .queue_length _ => .queue_length
  | .cache_interval _ => .cache_interval
  | .mpd_host _ => .mpd_host
  | .mpd_port _ => .mpd_port
  | .mpd_timeout _ => .mpd_timeout
  | .mpd_interval _ => .mpd_interval
  | .mpd_password _ => .mpd_password
  | .as_username _ => .as_username
  | .as_password _ => .as_password
  | .as_password_hash _ => .as_password_hash

/-- The option value an assignment gives when it is accepted; for `log_level`
the level that `cf_log_level` decodes. -/
def Setting.value : Setting → Value
  | .log_level v => .level (cf_log_level v G_LOG_LEVEL_ERROR).2
  | .log_file v => .str v
  | .pid_file v => .str v
  | .cache_file v => .str v
  | .queue_length v => .num v
  | .cache_interval v => .num v
  | .mpd_host v => .str v
  | .mpd_port v => .num v
  | .mpd_timeout v => .num v
  | .mpd_interval v => .num v
  | .mpd_password v => .str v
  | .as_username v => .str v
  | .as_password v => .str v
  | .as_password_hash v => .str v

/-- The value an assignment gives to the key `k`, if it sets `k`. -/
def Setting.value_for (k : Key) (s : Setting) : Option Value :=
  if s.key = k then some s.value else none

/-- The value a `cfg_t` holds for a key (`cfg_getint`, `cfg_getstr`). -/
def Cfg.get (c : Cfg) : Key → Value
  | .log_level => .level c.log_level
  | .log_file => .str c.log_file
  | .pid_file => .str c.pid_file
  | .cache_file => .str c.cache_file
  | .queue_length => .num c.queue_length
  | .cache_interval => .num c.cache_interval
  | .mpd_host => .str c.mpd_host
  | .mpd_port => .num c.mpd_port
  | .mpd_timeout => .num c.mpd_timeout
  | .mpd_interval => .num c.mpd_interval
  | .mpd_password => .str c.mpd_password
  | .as_username => .str c.as_username
  | .as_password => .str c.as_password
  | .as_password_hash => .str c.as_password_hash

/-- A file system whose only file, at the system-wide location, sets no
key. -/
def empty_file_files (p : String) : FileState :=
  if p = "/etc/scmpc.conf" then .text [] else .missing

/-- The sample world with `empty_file_files`. -/
def empty_file_world : World := { sample_world with files := empty_file_files }

/-- The sample world with `HOME` set to the empty string. -/
def empty_home_world : World := { sample_world with HOME := some "" }

/-- The sample world with every path naming a malformed file. -/
def malformed_world : World := { sample_world with files := fun _ => .malformed }

/-- The options `--version --kill --quiet --debug --pid-file /tmp/x.pid`. -/
def version_options : Options := { conflict_options with version := true, dokill := true }

/-- The options `--kill --pid-file /tmp/x.pid`. -/
def kill_options : Options := { pid_file_options with dokill := true }

/-- The options `--foreground`. -/
def foreground_options : Options := { no_options with fork := false }

/-! ## More sample inputs -/

/-- The sample state with the explicit config path "/etc/scmpc.conf". -/
def explicit_prefs : Prefs := { sample_prefs with config_file := some "/etc/scmpc.conf" }

/-- The sample world with `MPD_PORT=-1`. -/
def minus_one_port_world : World := { sample_world with MPD_PORT := some "-1" }

/-! ## Files that differ only in `mpd.interval` -/

/-- An assignment with the value of `mpd.interval` replaced by 0. -/
def Setting.without_interval : Setting → Setting
  | .mpd_interval _ => .mpd_interval 0
  | s => s

/-- A file with the value of every `mpd.interval` assignment replaced by 0:
two files differ only in the value of `mpd.interval` when this makes them
equal. -/
def FileState.without_interval : FileState → FileState
  | .text settings => .text (settings.map Setting.without_interval)
  | s => s

/-- The option values with `mpd.interval` replaced by 0. -/
def Cfg.without_interval (c : Cfg) : Cfg := { c with mpd_interval := 0 }

/-- A file system whose only file sets `mpd.interval = -5` among other
keys. -/
def negative_interval_files (p : String) : FileState :=
  if p = "/etc/scmpc.conf" then
    .text [.mpd_host "mpd.example.org", .mpd_interval (-5), .queue_length 20]
  else .missing

/-- The same file system with `mpd.interval = 30` in the file. -/
def other_interval_files (p : String) : FileState :=
  if p = "/etc/scmpc.conf" then
    .text [.mpd_host "mpd.example.org", .mpd_interval 30, .queue_length 20]
  else .missing

/-- The sample world with `negative_interval_files`. -/
def negative_interval_world : World := { sample_world with files := negative_interval_files }

/-- A file system whose only file, at the system-wide location, sets
`queue_length = -1`. -/
def negative_queue_files (p : String) : FileState :=
  if p = "/etc/scmpc.conf" then .text [.log_file "/tmp/log", .queue_length (-1)] else .missing

/-- The sample world with `negative_queue_files`. -/
def negative_queue_world : World := { sample_world with files := negative_queue_files }

/-- A file system whose only file sets `mpd.port = -4294967296`. -/
def wrapped_port_files (p : String) : FileState :=
  if p = "/etc/scmpc.conf" then .text [.mpd_port (-4294967296)] else .missing

/-- The sample world with `wrapped_port_files`. -/
def wrapped_port_world : World := { sample_world with files := wrapped_port_files }

/-- A file system whose only file sets `queue_length = 4294967295`. -/
def large_queue_files (p : String) : FileState :=
  if p = "/etc/scmpc.conf" then .text [.queue_length 4294967295] else .missing

/-- The sample world with `large_queue_files`. -/
def large_queue_world : World := { sample_world with files := large_queue_files }

/-! ## Properties -/

theorem strncmp_length_eq_zero (lit : List Char) (hlit : ∀ c ∈ lit, c.toNat ≠ 0)
    (v : List Char) : strncmp v lit lit.length = 0 ↔ lit <+: v := by
  induction lit generalizing v with
  | nil => simp [strncmp]
  | cons b bs ih =>
    cases v with
    | nil =>
      have hb : (b.toNat : Int) ≠ 0 := by
        have := hlit b (by simp)
        exact_mod_cast this
      simp [strncmp, hb]
    | cons a as =>
      have ih2 := ih (fun c hc => hlit c (by simp [hc])) as
      by_cases hab : a = b
      · subst hab
        simp [strncmp, ih2, List.cons_prefix_cons]
      · have hne : (a.toNat : Int) - (b.toNat : Int) ≠ 0 := by
          intro h
          apply hab
          have h2 : a.toNat = b.toNat := by omega
          rw [← Char.ofNat_toNat a, ← Char.ofNat_toNat b, h2]
        have hba : ¬ b = a := fun h => hab h.symm
        simp [strncmp, hab, hne, List.cons_prefix_cons, hba]

theorem head_of_cons_prefix {a : Char} {l v : List Char} (h : (a :: l) <+: v) :
    v.head? = some a := by
  obtain ⟨t, rfl⟩ := h
  simp

theorem strncmp_none (v : List Char) :
    strncmp v "none".toList 4 = 0 ↔ "none".toList <+: v :=
  strncmp_length_eq_zero "none".toList (by decide) v

theorem strncmp_error (v : List Char) :
    strncmp v "error".toList 5 = 0 ↔ "error".toList <+: v :=
  strncmp_length_eq_zero "error".toList (by decide) v

theorem strncmp_warning (v : List Char) :
    strncmp v "warning".toList 7 = 0 ↔ "warning".toList <+: v :=
  strncmp_length_eq_zero "warning".toList (by decide) v

theorem strncmp_info (v : List Char) :
    strncmp v "info".toList 4 = 0 ↔ "info".toList <+: v :=
  strncmp_length_eq_zero "info".toList (by decide) v

theorem strncmp_debug (v : List Char) :
    strncmp v "debug".toList 5 = 0 ↔ "debug".toList <+: v :=
  strncmp_length_eq_zero "debug".toList (by decide) v

/-- The decoder, stated with the prefix relation in place of `strncmp`. -/
theorem cf_log_level_eq (v : String) (r : GLogLevelFlags) :
    cf_log_level v r =
      if "none".toList <+: v.toList then (0, G_LOG_LEVEL_ERROR)
      else if "error".toList <+: v.toList then (0, G_LOG_LEVEL_ERROR)
      else if "warning".toList <+: v.toList then (0, G_LOG_LEVEL_WARNING)
      else if "info".toList <+: v.toList then (0, G_LOG_LEVEL_MESSAGE)
      else if "debug".toList <+: v.toList then (0, G_LOG_LEVEL_DEBUG)
      else (-1, r) := by
  unfold cf_log_level
  simp only [strncmp_none, strncmp_error, strncmp_warning, strncmp_info, strncmp_debug]

/-- C1 (counterexample): the value "debugging" is none of the five words, yet
`cf_log_level` succeeds on it (and writes DEBUG), so success is not equivalent
to the value being exactly one of the five words. -/
theorem cf_log_level_not_whole_string :
    ¬ ((cf_log_level "debugging" G_LOG_LEVEL_ERROR).1 = 0 ↔
        "debugging" ∈ ["none", "error", "warning", "info", "debug"]) := by
  decide

/-- C1 (amended): for every string `v`, `cf_log_level` succeeds if and only if
`v` begins (case-sensitively) with one of "none", "error", "warning", "info",
"debug"; it then yields ERROR when `v` begins with "none" or "error", WARNING
for "warning", MESSAGE for "info" and DEBUG for "debug" (so each of the five
words itself decodes as the claim says); for every other string it returns
-1 and leaves the level slot as it was. -/
theorem cf_log_level_prefix_match (v : String) (r : GLogLevelFlags) :
    ((cf_log_level v r).1 = 0 ↔
      ∃ word ∈ ["none", "error", "warning", "info", "debug"], word.toList <+: v.toList) ∧
    ("none".toList <+: v.toList ∨ "error".toList <+: v.toList →
      cf_log_level v r = (0, G_LOG_LEVEL_ERROR)) ∧
    ("warning".toList <+: v.toList → cf_log_level v r = (0, G_LOG_LEVEL_WARNING)) ∧
    ("info".toList <+: v.toList → cf_log_level v r = (0, G_LOG_LEVEL_MESSAGE)) ∧
    ("debug".toList <+: v.toList → cf_log_level v r = (0, G_LOG_LEVEL_DEBUG)) ∧
    ((¬ ∃ word ∈ ["none", "error", "warning", "info", "debug"], word.toList <+: v.toList) →
      cf_log_level v r = (-1, r)) ∧
    cf_log_level "none" r = (0, G_LOG_LEVEL_ERROR) ∧
    cf_log_level "error" r = (0, G_LOG_LEVEL_ERROR) ∧
    cf_log_level "warning" r = (0, G_LOG_LEVEL_WARNING) ∧
    cf_log_level "info" r = (0, G_LOG_LEVEL_MESSAGE) ∧
    cf_log_level "debug" r = (0, G_LOG_LEVEL_DEBUG) := by
  have hn : "none".toList <+: v.toList → v.toList.head? = some 'n' := head_of_cons_prefix
  have he : "error".toList <+: v.toList → v.toList.head? = some 'e' := head_of_cons_prefix
  have hw : "warning".toList <+: v.toList → v.toList.head? = some 'w' := head_of_cons_prefix
  have hi : "info".toList <+: v.toList → v.toList.head? = some 'i' := head_of_cons_prefix
  have hd : "debug".toList <+: v.toList → v.toList.head? = some 'd' := head_of_cons_prefix
  refine ⟨?_, ?_, ?_, ?_, ?_, ?_, by cases r <;> decide, by cases r <;> decide,
    by cases r <;> decide, by cases r <;> decide, by cases r <;> decide⟩
  · rw [cf_log_level_eq]
    simp only [List.mem_cons, List.mem_singleton, exists_eq_or_imp, exists_eq_left,
      List.not_mem_nil, false_and, exists_false, or_false]
    split_ifs <;> simp_all
  · rintro (h | h)
    · rw [cf_log_level_eq, if_pos h]
    · rw [cf_log_level_eq]
      split_ifs <;> rfl
  · intro h
    have h1 : ¬ "none".toList <+: v.toList := fun h2 => by
      have := hn h2; rw [hw h] at this; revert this; decide
    have h2 : ¬ "error".toList <+: v.toList := fun h2 => by
      have := he h2; rw [hw h] at this; revert this; decide
    rw [cf_log_level_eq, if_neg h1, if_neg h2, if_pos h]
  · intro h
    have h1 : ¬ "none".toList <+: v.toList := fun h2 => by
      have := hn h2; rw [hi h] at this; revert this; decide
    have h2 : ¬ "error".toList <+: v.toList := fun h2 => by
      have := he h2; rw [hi h] at this; revert this; decide
    have h3 : ¬ "warning".toList <+: v.toList := fun h2 => by
      have := hw h2; rw [hi h] at this; revert this; decide
    rw [cf_log_level_eq, if_neg h1, if_neg h2, if_neg h3, if_pos h]
  · intro h
    have h1 : ¬ "none".toList <+: v.toList := fun h2 => by
      have := hn h2; rw [hd h] at this; revert this; decide
    have h2 : ¬ "error".toList <+: v.toList := fun h2 => by
      have := he h2; rw [hd h] at this; revert this; decide
    have h3 : ¬ "warning".toList <+: v.toList := fun h2 => by
      have := hw h2; rw [hd h] at this; revert this; decide
    have h4 : ¬ "info".toList <+: v.toList := fun h2 => by
      have := hi h2; rw [hd h] at this; revert this; decide
    rw [cf_log_level_eq, if_neg h1, if_neg h2, if_neg h3, if_neg h4, if_pos h]
  · intro h
    simp only [List.mem_cons, List.mem_singleton, exists_eq_or_imp, exists_eq_left,
      List.not_mem_nil, false_and, exists_false, or_false, not_or] at h
    rw [cf_log_level_eq, if_neg h.1, if_neg h.2.1, if_neg h.2.2.1, if_neg h.2.2.2.1,
      if_neg h.2.2.2.2]

/-- C1 (witness): "warning.verbose" begins with "warning" and decodes to
WARNING. -/
theorem cf_log_level_prefix_match_witness :
    cf_log_level "warning.verbose" G_LOG_LEVEL_DEBUG = (0, G_LOG_LEVEL_WARNING) :=
  (cf_log_level_prefix_match "warning.verbose" G_LOG_LEVEL_DEBUG).2.2.1 (by decide)

/-! ### Locating the config file -/

theorem cfg_parse_file_error_cfg (w : World) (cfg : Cfg) (f : String)
    (h : (cfg_parse w cfg f).1 = CFG_FILE_ERROR) : (cfg_parse w cfg f).2 = cfg := by
  unfold cfg_parse at h ⊢
  by_cases h0 : f = ""
  · simp [h0]
  · simp only [if_neg h0] at h ⊢
    cases hf : w.files f with
    | missing => simp
    | malformed => simp
    | text ss =>
      simp only [hf] at h ⊢
      cases hs : cfg_setopts cfg ss with
      | none => simp
      | some c =>
        simp only [hs] at h
        simp [CFG_SUCCESS, CFG_FILE_ERROR] at h

theorem parse_files_loop_cons_missing (w : World) (cfg : Cfg) (g : String) (l : List String)
    (hg : (cfg_parse w cfg g).1 = CFG_FILE_ERROR) :
    parse_files_loop w (g :: l) cfg =
      ((parse_files_loop w l cfg).1, (parse_files_loop w l cfg).2.1,
        Event.cfg_parse g :: (parse_files_loop w l cfg).2.2) := by
  have hne : ¬ (CFG_FILE_ERROR = CFG_PARSE_ERROR) := by decide
  simp only [parse_files_loop, hg, hne, if_false, if_true, cfg_parse_file_error_cfg w cfg g hg]

theorem parse_files_loop_all_missing (w : World) (cfg : Cfg) (l : List String)
    (h : ∀ p ∈ l, (cfg_parse w cfg p).1 = CFG_FILE_ERROR) :
    parse_files_loop w l cfg = (false, cfg, l.map Event.cfg_parse) := by
  induction l with
  | nil => rfl
  | cons f rest ih =>
    have hf := h f (by simp)
    have ih2 := ih (fun p hp => h p (by simp [hp]))
    rw [parse_files_loop_cons_missing w cfg f rest hf, ih2]
    rfl

theorem parse_files_loop_first (w : World) (cfg : Cfg) (pre : List String) (f : String)
    (post : List String) (hpre : ∀ p ∈ pre, (cfg_parse w cfg p).1 = CFG_FILE_ERROR)
    (hf : (cfg_parse w cfg f).1 ≠ CFG_FILE_ERROR) :
    parse_files_loop w (pre ++ f :: post) cfg =
      (decide ((cfg_parse w cfg f).1 = CFG_SUCCESS), (cfg_parse w cfg f).2,
        (pre ++ [f]).map Event.cfg_parse) := by
  have hps : ¬ (CFG_PARSE_ERROR = CFG_SUCCESS) := by decide
  have hsp : ¬ (CFG_SUCCESS = CFG_PARSE_ERROR) := by decide
  have hsf : ¬ (CFG_SUCCESS = CFG_FILE_ERROR) := by decide
  induction pre with
  | nil =>
    simp only [List.nil_append, parse_files_loop, List.map_cons, List.map_nil]
    by_cases h1 : (cfg_parse w cfg f).1 = CFG_PARSE_ERROR
    · simp [h1, hps]
    · by_cases h2 : (cfg_parse w cfg f).1 = CFG_SUCCESS
      · simp [h2, hsp, hsf]
      · simp [h1, hf, h2]
  | cons g rest ih =>
    have hg := hpre g (by simp)
    have ih2 := ih (fun p hp => hpre p (by simp [hp]))
    rw [List.cons_append, parse_files_loop_cons_missing w cfg g _ hg, ih2]
    rfl

theorem cfg_parse_outcome (w : World) (cfg : Cfg) (p : String) :
    ((cfg_parse w cfg p).1 = CFG_FILE_ERROR ↔ p = "" ∨ w.files p = .missing) ∧
    ((cfg_parse w cfg p).1 = CFG_FILE_ERROR ∨ (cfg_parse w cfg p).1 = CFG_PARSE_ERROR ∨
      (cfg_parse w cfg p).1 = CFG_SUCCESS) := by
  have hpf : ¬ (CFG_PARSE_ERROR = CFG_FILE_ERROR) := by decide
  have hsf : ¬ (CFG_SUCCESS = CFG_FILE_ERROR) := by decide
  unfold cfg_parse
  by_cases h0 : p = ""
  · simp [h0]
  · simp only [if_neg h0, h0, false_or]
    cases hf : w.files p with
    | missing => simp
    | malformed => simp [hpf]
    | text ss =>
      cases hs : cfg_setopts cfg ss with
      | none => simp [hs, hpf]
      | some c => simp [hs, hsf]

theorem first_not_missing_split (w : World) (cfg : Cfg) (l : List String) :
    (∀ p ∈ l, (cfg_parse w cfg p).1 = CFG_FILE_ERROR) ∨
    ∃ pre f post, l = pre ++ f :: post ∧
      (∀ p ∈ pre, (cfg_parse w cfg p).1 = CFG_FILE_ERROR) ∧
      (cfg_parse w cfg f).1 ≠ CFG_FILE_ERROR := by
  induction l with
  | nil => left; simp
  | cons g rest ih =>
    by_cases hg : (cfg_parse w cfg g).1 = CFG_FILE_ERROR
    · rcases ih with h | ⟨pre, f, post, h1, h2, h3⟩
      · left
        intro p hp
        rcases List.mem_cons.1 hp with rfl | hp
        · exact hg
        · exact h p hp
      · right
        refine ⟨g :: pre, f, post, by simp [h1], ?_, h3⟩
        intro p hp
        rcases List.mem_cons.1 hp with rfl | hp
        · exact hg
        · exact h2 p hp
    · right
      exact ⟨[], g, rest, rfl, by simp, hg⟩

/-- C2: `parse_files` succeeds if and only if the first candidate that is not
missing parses successfully; whenever there is a first candidate `f` that is
not missing, the parser is handed exactly the candidates up to and including
`f` (no later one), the option values are those of parsing `f`, and the
result is success exactly when `f` parses (so a malformed `f` ends the search
with failure); when every candidate is missing the search fails after trying
them all. -/
theorem parse_files_first_not_missing (w : World) (prefs : Prefs) (cfg : Cfg) :
    ((parse_files w prefs cfg).1 = true ↔
      ∃ pre f post, config_files w prefs = pre ++ f :: post ∧
        (∀ p ∈ pre, (cfg_parse w cfg p).1 = CFG_FILE_ERROR) ∧
        (cfg_parse w cfg f).1 = CFG_SUCCESS) ∧
    (∀ pre f post, config_files w prefs = pre ++ f :: post →
      (∀ p ∈ pre, (cfg_parse w cfg p).1 = CFG_FILE_ERROR) →
      (cfg_parse w cfg f).1 ≠ CFG_FILE_ERROR →
        (parse_files w prefs cfg).2.2 = (pre ++ [f]).map Event.cfg_parse ∧
        (parse_files w prefs cfg).2.1 = (cfg_parse w cfg f).2 ∧
        ((parse_files w prefs cfg).1 = true ↔ (cfg_parse w cfg f).1 = CFG_SUCCESS) ∧
        ((cfg_parse w cfg f).1 = CFG_PARSE_ERROR → (parse_files w prefs cfg).1 = false)) ∧
    ((∀ p ∈ config_files w prefs, (cfg_parse w cfg p).1 = CFG_FILE_ERROR) →
      (parse_files w prefs cfg).1 = false ∧
      (parse_files w prefs cfg).2.2 = (config_files w prefs).map Event.cfg_parse) ∧
    (∀ p, ((cfg_parse w cfg p).1 = CFG_FILE_ERROR ↔ p = "" ∨ w.files p = .missing) ∧
      ((cfg_parse w cfg p).1 = CFG_FILE_ERROR ∨ (cfg_parse w cfg p).1 = CFG_PARSE_ERROR ∨
        (cfg_parse w cfg p).1 = CFG_SUCCESS)) := by
  have key : ∀ pre f post, config_files w prefs = pre ++ f :: post →
      (∀ p ∈ pre, (cfg_parse w cfg p).1 = CFG_FILE_ERROR) →
      (cfg_parse w cfg f).1 ≠ CFG_FILE_ERROR →
      parse_files w prefs cfg =
        (decide ((cfg_parse w cfg f).1 = CFG_SUCCESS), (cfg_parse w cfg f).2,
          (pre ++ [f]).map Event.cfg_parse) := by
    intro pre f post hc hpre hf
    unfold parse_files
    rw [hc]
    exact parse_files_loop_first w cfg pre f post hpre hf
  have hsf : CFG_SUCCESS ≠ CFG_FILE_ERROR := by decide
  have hps : CFG_PARSE_ERROR ≠ CFG_SUCCESS := by decide
  refine ⟨⟨?_, ?_⟩, ?_, ?_, cfg_parse_outcome w cfg⟩
  · intro h
    rcases first_not_missing_split w cfg (config_files w prefs) with hall | ⟨pre, f, post, h1, h2, h3⟩
    · unfold parse_files at h
      rw [parse_files_loop_all_missing w cfg _ hall] at h
      simp at h
    · refine ⟨pre, f, post, h1, h2, ?_⟩
      rw [key pre f post h1 h2 h3] at h
      simpa using h
  · rintro ⟨pre, f, post, h1, h2, h3⟩
    rw [key pre f post h1 h2 (by rw [h3]; exact hsf)]
    simp [h3]
  · intro pre f post h1 h2 h3
    rw [key pre f post h1 h2 h3]
    refine ⟨rfl, rfl, by simp, ?_⟩
    intro h4
    simp [h4, hps]
  · intro hall
    unfold parse_files
    rw [parse_files_loop_all_missing w cfg _ hall]
    exact ⟨rfl, rfl⟩

/-- C2 (witness): with outcomes [missing, missing, ok] for the three default
candidates, the search succeeds, having tried the three in order, and the
option values are those of the third file. -/
theorem parse_files_first_not_missing_witness :
    (parse_files sample_world sample_prefs cfg_init).1 = true ∧
    (parse_files sample_world sample_prefs cfg_init).2.2 =
      [Event.cfg_parse "/home/u/.scmpcrc", Event.cfg_parse "/home/u/.scmpc/scmpc.conf",
       Event.cfg_parse "/etc/scmpc.conf"] ∧
    (parse_files sample_world sample_prefs cfg_init).2.1 =
      (cfg_parse sample_world cfg_init "/etc/scmpc.conf").2 := by
  have h := (parse_files_first_not_missing sample_world sample_prefs cfg_init).2.1
    ["/home/u/.scmpcrc", "/home/u/.scmpc/scmpc.conf"] "/etc/scmpc.conf" []
    (by decide) (by decide) (by decide)
  exact ⟨h.2.2.1.2 (by decide), h.1, h.2.1⟩

theorem cfg_parse_empty (w : World) (cfg : Cfg) : cfg_parse w cfg "" = (CFG_FILE_ERROR, cfg) := by
  simp [cfg_parse]

theorem parse_files_explicit (w : World) (prefs : Prefs) (cfg : Cfg) (f : String)
    (h : prefs.config_file = some f) :
    parse_files w prefs cfg =
      if (cfg_parse w cfg f).1 = CFG_FILE_ERROR then
        (false, cfg, [Event.cfg_parse f, Event.cfg_parse "", Event.cfg_parse ""])
      else
        (decide ((cfg_parse w cfg f).1 = CFG_SUCCESS), (cfg_parse w cfg f).2,
          [Event.cfg_parse f]) := by
  have hl : config_files w prefs = [f, "", ""] := by simp [config_files, h]
  unfold parse_files
  rw [hl]
  split_ifs with hf
  · exact parse_files_loop_all_missing w cfg [f, "", ""] (by
      intro p hp
      simp only [List.mem_cons, List.mem_singleton, List.not_mem_nil, or_false, or_self] at hp
      rcases hp with rfl | rfl
      · exact hf
      · rw [cfg_parse_empty])
  · exact parse_files_loop_first w cfg [] f ["", ""] (by simp) hf

/-- C3 (counterexample): with the explicit path "/nonexistent.conf" set, the
array built is not the one-element list of that path: it has two more
entries, the empty path twice, and both are handed to the parser after the
explicit path turns out missing. -/
theorem config_files_explicit_not_singleton :
    config_files sample_world { sample_prefs with config_file := some "/nonexistent.conf" } ≠
      ["/nonexistent.conf"] ∧
    (parse_files sample_world { sample_prefs with config_file := some "/nonexistent.conf" }
      cfg_init).2.2 =
      [Event.cfg_parse "/nonexistent.conf", Event.cfg_parse "", Event.cfg_parse ""] := by
  decide

/-- C3 (amended): when an explicit config path `f` is set in Settings the
candidate list is `[f, "", ""]`, the explicit path followed by two empty
paths that `cfg_parse` cannot open: only `f` is handed to the parser when
`f` is not missing, `f` and then the empty path twice when it is, so no
default location is tried, and resolution succeeds iff `f` parses; otherwise
the list is exactly `[home/.scmpcrc, home/.scmpc/scmpc.conf,
SYSCONFDIR/scmpc.conf]` in that order, `home` being `HOME` when set and the
platform home directory otherwise. -/
theorem config_files_candidates (w : World) (prefs : Prefs) (cfg : Cfg) :
    (∀ f, prefs.config_file = some f →
      config_files w prefs = [f, "", ""] ∧
      ((cfg_parse w cfg f).1 ≠ CFG_FILE_ERROR →
        (parse_files w prefs cfg).2.2 = [Event.cfg_parse f]) ∧
      ((cfg_parse w cfg f).1 = CFG_FILE_ERROR →
        (parse_files w prefs cfg).2.2 =
          [Event.cfg_parse f, Event.cfg_parse "", Event.cfg_parse ""]) ∧
      ((parse_files w prefs cfg).1 = true ↔ (cfg_parse w cfg f).1 = CFG_SUCCESS)) ∧
    (prefs.config_file = none →
      (∀ home, w.HOME = some home →
        config_files w prefs =
          [home ++ "/.scmpcrc", home ++ "/.scmpc/scmpc.conf", w.SYSCONFDIR ++ "/scmpc.conf"]) ∧
      (w.HOME = none →
        config_files w prefs =
          [w.g_get_home_dir ++ "/.scmpcrc", w.g_get_home_dir ++ "/.scmpc/scmpc.conf",
           w.SYSCONFDIR ++ "/scmpc.conf"])) := by
  have hsf : ¬ (CFG_SUCCESS = CFG_FILE_ERROR) := by decide
  refine ⟨?_, ?_⟩
  · intro f h
    rw [parse_files_explicit w prefs cfg f h]
    refine ⟨by simp [config_files, h], ?_, ?_, ?_⟩
    · intro hf
      rw [if_neg hf]
    · intro hf
      rw [if_pos hf]
    · by_cases hf : (cfg_parse w cfg f).1 = CFG_FILE_ERROR
      · rw [if_pos hf, hf]
        simp [Ne.symm hsf]
      · rw [if_neg hf]
        simp
  · intro h
    refine ⟨?_, ?_⟩
    · intro home hh
      simp [config_files, h, hh]
    · intro hh
      simp [config_files, h, hh]

/-- C3 (witness): with the explicit path "/etc/scmpc.conf", a valid file,
resolution succeeds and only that path is handed to the parser. -/
theorem config_files_candidates_witness :
    (parse_files sample_world { sample_prefs with config_file := some "/etc/scmpc.conf" }
      cfg_init).1 = true ∧
    (parse_files sample_world { sample_prefs with config_file := some "/etc/scmpc.conf" }
      cfg_init).2.2 = [Event.cfg_parse "/etc/scmpc.conf"] :=
  have h := (config_files_candidates sample_world
    { sample_prefs with config_file := some "/etc/scmpc.conf" } cfg_init).1
    "/etc/scmpc.conf" rfl
  ⟨h.2.2.2.2 (by decide), h.2.1 (by decide)⟩

/-! ### Validation in the file layer -/

theorem cf_validate_num_ne_zero (x : Int) : cf_validate_num x ≠ 0 ↔ to_gint x < 0 := by
  unfold cf_validate_num
  by_cases h : to_gint x < 0 <;> simp [h]

theorem cfg_setopts_none_of_mem (s : Setting) (hs : ∀ cfg, cfg_setopt cfg s = none)
    (ss : List Setting) (hmem : s ∈ ss) : ∀ cfg, cfg_setopts cfg ss = none := by
  induction ss with
  | nil => simp at hmem
  | cons t rest ih =>
    intro cfg
    rcases List.mem_cons.1 hmem with rfl | h
    · simp [cfg_setopts, hs]
    · cases ht : cfg_setopt cfg t with
      | none => simp [cfg_setopts, ht]
      | some c => simp [cfg_setopts, ht, ih h c]

theorem cfg_parse_text (w : World) (cfg : Cfg) (f : String) (ss : List Setting)
    (hne : f ≠ "") (hf : w.files f = .text ss) :
    cfg_parse w cfg f =
      match cfg_setopts cfg ss with
      | none => (CFG_PARSE_ERROR, cfg)
      | some c => (CFG_SUCCESS, c) := by
  simp [cfg_parse, hne, hf]

/-- The search, when the first candidate that is not missing is a
syntactically valid file with the assignments `ss`. -/
theorem parse_files_used (w : World) (prefs : Prefs) (cfg : Cfg) (pre : List String)
    (f : String) (post : List String) (ss : List Setting)
    (hc : config_files w prefs = pre ++ f :: post)
    (hpre : ∀ p ∈ pre, (cfg_parse w cfg p).1 = CFG_FILE_ERROR)
    (hne : f ≠ "") (hf : w.files f = .text ss) :
    parse_files w prefs cfg =
      match cfg_setopts cfg ss with
      | none => (false, cfg, (pre ++ [f]).map Event.cfg_parse)
      | some c => (true, c, (pre ++ [f]).map Event.cfg_parse) := by
  have hp := cfg_parse_text w cfg f ss hne hf
  have hpf : ¬ (CFG_PARSE_ERROR = CFG_FILE_ERROR) := by decide
  have hps : ¬ (CFG_PARSE_ERROR = CFG_SUCCESS) := by decide
  have hsf : ¬ (CFG_SUCCESS = CFG_FILE_ERROR) := by decide
  unfold parse_files
  rw [hc]
  cases hs : cfg_setopts cfg ss with
  | none =>
    rw [hs] at hp
    have hp2 : cfg_parse w cfg f = (CFG_PARSE_ERROR, cfg) := hp
    rw [parse_files_loop_first w cfg pre f post hpre (by rw [hp2]; exact hpf), hp2]
    simp [hps]
  | some c =>
    rw [hs] at hp
    have hp2 : cfg_parse w cfg f = (CFG_SUCCESS, c) := hp
    rw [parse_files_loop_first w cfg pre f post hpre (by rw [hp2]; exact hsf), hp2]
    simp

theorem parse_config_file_failure (w : World) (prefs : Prefs)
    (h : (parse_config_file w prefs).1 = false) : (parse_config_file w prefs).2.1 = prefs := by
  unfold parse_config_file at h ⊢
  by_cases h1 : (parse_files w prefs cfg_init).1 = false
  · simp [h1]
  · simp [h1] at h

/-! ### Failure of a layer -/

theorem parse_command_line_error (w : World) (msg : String) (prefs : Prefs) :
    parse_command_line w (.error msg) prefs =
      ⟨.returned false, prefs, [Event.g_print msg], false⟩ := rfl

theorem parse_command_line_file_failure (w : World) (o : Options) (prefs : Prefs)
    (hv : o.version = false)
    (hfile : (parse_config_file w { prefs with config_file := o.conf_file }).1 = false) :
    (parse_command_line w (.ok o) prefs).result = .returned false ∧
    (parse_command_line w (.ok o) prefs).prefs = { prefs with config_file := o.conf_file } := by
  have h2 := parse_config_file_failure w _ hfile
  simp only [parse_command_line, hv, hfile, h2]
  simp

theorem parse_command_line_conflict (w : World) (o : Options) (prefs : Prefs)
    (hv : o.version = false)
    (hfile : (parse_config_file w { prefs with config_file := o.conf_file }).1 = true)
    (hq : o.quiet = true) (hd : o.debug = true) :
    (parse_command_line w (.ok o) prefs).result = .returned false ∧
    (parse_command_line w (.ok o) prefs).prefs =
      match o.pid_file with
      | some p =>
        { (parse_config_file w { prefs with config_file := o.conf_file }).2.1 with
          pid_file := some p }
      | none => (parse_config_file w { prefs with config_file := o.conf_file }).2.1 := by
  simp only [parse_command_line, hv, hfile, hq, hd]
  simp

theorem init_preferences_of_not_success (w : World) (argv : Except String Options)
    (prefs : Prefs) (h : (parse_command_line w argv prefs).result ≠ .returned true) :
    init_preferences w argv prefs = parse_command_line w argv prefs := by
  unfold init_preferences
  cases hr : (parse_command_line w argv prefs).result with
  | returned b =>
    cases b with
    | true => exact absurd hr h
    | false => simp
  | exited st => simp

/-- The environment layer never changes how the call ends. -/
theorem init_preferences_result (w : World) (argv : Except String Options) (prefs : Prefs) :
    (init_preferences w argv prefs).result = (parse_command_line w argv prefs).result := by
  by_cases h : (parse_command_line w argv prefs).result = .returned true
  · simp only [init_preferences, h]
    cases w.MPD_PORT <;> rfl
  · rw [init_preferences_of_not_success w argv prefs h]

/-! ### The command-line layer on top of the file layer -/

/-- A successful `parse_command_line`: no `--version`, the file layer
succeeded, no conflict, and Settings is the file layer's result with the
flags applied. -/
theorem parse_command_line_success (w : World) (o : Options) (prefs : Prefs)
    (h : (parse_command_line w (.ok o) prefs).result = .returned true) :
    o.version = false ∧
    (parse_config_file w { prefs with config_file := o.conf_file }).1 = true ∧
    ¬ (o.quiet = true ∧ o.debug = true) ∧
    (parse_command_line w (.ok o) prefs).prefs =
      { (parse_config_file w { prefs with config_file := o.conf_file }).2.1 with
        pid_file :=
          match o.pid_file with
          | some p => some p
          | none => (parse_config_file w { prefs with config_file := o.conf_file }).2.1.pid_file
        log_level :=
          if o.quiet = true then G_LOG_LEVEL_ERROR
          else if o.debug = true then G_LOG_LEVEL_DEBUG
          else (parse_config_file w { prefs with config_file := o.conf_file }).2.1.log_level
        fork :=
          if o.fork = false then false
          else (parse_config_file w { prefs with config_file := o.conf_file }).2.1.fork } := by
  cases hv : o.version with
  | true => simp [parse_command_line, hv] at h
  | false =>
    cases hfile : (parse_config_file w { prefs with config_file := o.conf_file }).1 with
    | false => simp [parse_command_line, hv, hfile] at h
    | true =>
      refine ⟨rfl, rfl, ?_, ?_⟩
      · rintro ⟨hq, hd⟩
        simp [parse_command_line, hv, hfile, hq, hd] at h
      · cases hq : o.quiet <;> cases hd : o.debug <;> cases hf : o.fork <;>
          cases hp : o.pid_file <;> cases hk : o.dokill <;>
          simp [parse_command_line, hv, hfile, hq, hd, hf, hp, hk] at h ⊢ <;>
          (try cases hks : w.kill_scmpc _) <;> simp_all

/-- The environment layer leaves every field but `mpd_hostname`,
`mpd_password` and `mpd_port` as the command-line layer left it. -/
theorem init_preferences_frame (w : World) (argv : Except String Options) (prefs : Prefs) :
    (init_preferences w argv prefs).prefs.log_level =
      (parse_command_line w argv prefs).prefs.log_level ∧
    (init_preferences w argv prefs).prefs.pid_file =
      (parse_command_line w argv prefs).prefs.pid_file ∧
    (init_preferences w argv prefs).prefs.fork =
      (parse_command_line w argv prefs).prefs.fork ∧
    (init_preferences w argv prefs).prefs.config_file =
      (parse_command_line w argv prefs).prefs.config_file := by
  by_cases h : (parse_command_line w argv prefs).result = .returned true
  · simp only [init_preferences, h]
    cases w.MPD_PORT <;> cases w.MPD_HOST <;> simp
  · rw [init_preferences_of_not_success w argv prefs h]
    simp

theorem cf_log_level_snd (v : String) (r r2 : GLogLevelFlags) (h : (cf_log_level v r).1 = 0) :
    (cf_log_level v r).2 = (cf_log_level v r2).2 := by
  rw [cf_log_level_eq] at h ⊢
  rw [cf_log_level_eq]
  split_ifs at h ⊢ <;> first | rfl | simp at h

theorem cfg_setopts_log_level (ss : List Setting) :
    ∀ cfg c, cfg_setopts cfg ss = some c →
      c.log_level =
        match last_value Setting.log_level_value ss with
        | some v => (cf_log_level v G_LOG_LEVEL_ERROR).2
        | none => cfg.log_level := by
  induction ss with
  | nil =>
    intro cfg c h
    simp [cfg_setopts] at h
    simp [last_value, h]
  | cons s rest ih =>
    intro cfg c h
    cases hs : cfg_setopt cfg s with
    | none => simp [cfg_setopts, hs] at h
    | some c1 =>
      simp only [cfg_setopts, hs] at h
      have h2 := ih c1 c h
      rw [h2]
      cases hl : last_value Setting.log_level_value rest with
      | some v => simp [last_value, hl]
      | none =>
        simp only [last_value, hl]
        cases s with
        | log_level v =>
          simp only [cfg_setopt] at hs
          split_ifs at hs with h0
          · simp only [Option.some.injEq] at hs
            rw [← hs]
            simp only [Setting.log_level_value]
            exact cf_log_level_snd v _ _ (by simpa using h0)
        | queue_length v =>
          simp only [cfg_setopt] at hs
          split_ifs at hs
          simp only [Option.some.injEq] at hs
          rw [← hs]; rfl
        | cache_interval v =>
          simp only [cfg_setopt] at hs
          split_ifs at hs
          simp only [Option.some.injEq] at hs
          rw [← hs]; rfl
        | mpd_port v =>
          simp only [cfg_setopt] at hs
          split_ifs at hs
          simp only [Option.some.injEq] at hs
          rw [← hs]; rfl
        | mpd_timeout v =>
          simp only [cfg_setopt] at hs
          split_ifs at hs
          simp only [Option.some.injEq] at hs
          rw [← hs]; rfl
        | _ =>
          simp only [cfg_setopt, Option.some.injEq] at hs
          rw [← hs]; rfl

theorem cfg_setopts_pid_file (ss : List Setting) :
    ∀ cfg c, cfg_setopts cfg ss = some c →
      c.pid_file = (last_value Setting.pid_file_value ss).getD cfg.pid_file := by
  induction ss with
  | nil =>
    intro cfg c h
    simp [cfg_setopts] at h
    simp [last_value, h]
  | cons s rest ih =>
    intro cfg c h
    cases hs : cfg_setopt cfg s with
    | none => simp [cfg_setopts, hs] at h
    | some c1 =>
      simp only [cfg_setopts, hs] at h
      have h2 := ih c1 c h
      rw [h2]
      cases hl : last_value Setting.pid_file_value rest with
      | some v => simp [last_value, hl]
      | none =>
        simp only [last_value, hl, Option.getD_none]
        cases s with
        | log_level v =>
          simp only [cfg_setopt] at hs
          split_ifs at hs
          simp only [Option.some.injEq] at hs
          rw [← hs]; rfl
        | queue_length v =>
          simp only [cfg_setopt] at hs
          split_ifs at hs
          simp only [Option.some.injEq] at hs
          rw [← hs]; rfl
        | cache_interval v =>
          simp only [cfg_setopt] at hs
          split_ifs at hs
          simp only [Option.some.injEq] at hs
          rw [← hs]; rfl
        | mpd_port v =>
          simp only [cfg_setopt] at hs
          split_ifs at hs
          simp only [Option.some.injEq] at hs
          rw [← hs]; rfl
        | mpd_timeout v =>
          simp only [cfg_setopt] at hs
          split_ifs at hs
          simp only [Option.some.injEq] at hs
          rw [← hs]; rfl
        | _ =>
          simp only [cfg_setopt, Option.some.injEq] at hs
          rw [← hs]; rfl

/-- The file layer, when it succeeds on a file with the assignments `ss`:
the option values come from applying `ss` to the defaults. -/
theorem parse_config_file_used (w : World) (prefs : Prefs) (pre : List String)
    (f : String) (post : List String) (ss : List Setting)
    (hc : config_files w prefs = pre ++ f :: post)
    (hpre : ∀ p ∈ pre, (cfg_parse w cfg_init p).1 = CFG_FILE_ERROR)
    (hne : f ≠ "") (hf : w.files f = .text ss)
    (hok : (parse_config_file w prefs).1 = true) :
    ∃ c, cfg_setopts cfg_init ss = some c ∧
      (parse_config_file w prefs).2.1.log_level = c.log_level ∧
      (parse_config_file w prefs).2.1.pid_file = some (expand_tilde w c.pid_file) := by
  have hpf := parse_files_used w prefs cfg_init pre f post ss hc hpre hne hf
  cases hs : cfg_setopts cfg_init ss with
  | none =>
    rw [hs] at hpf
    simp [parse_config_file, hpf] at hok
  | some c =>
    rw [hs] at hpf
    refine ⟨c, rfl, ?_, ?_⟩ <;> simp [parse_config_file, hpf]

/-- C6: on every successful resolution, with `--quiet` the resolved log level
is ERROR, with `--debug` it is DEBUG, and with neither it is the level the
file layer produced: for the file the search used, the decoding of its
(last) `log_level` value, or the default ERROR when the file does not set the
key. -/
theorem cli_log_level (w : World) (o : Options) (prefs : Prefs)
    (hsucc : (init_preferences w (.ok o) prefs).result = .returned true) :
    (o.quiet = true → (init_preferences w (.ok o) prefs).prefs.log_level = G_LOG_LEVEL_ERROR) ∧
    (o.debug = true → (init_preferences w (.ok o) prefs).prefs.log_level = G_LOG_LEVEL_DEBUG) ∧
    (o.quiet = false → o.debug = false →
      (init_preferences w (.ok o) prefs).prefs.log_level =
        (parse_config_file w { prefs with config_file := o.conf_file }).2.1.log_level ∧
      ∀ (pre : List String) (f : String) (post : List String) (ss : List Setting),
        config_files w { prefs with config_file := o.conf_file } = pre ++ f :: post →
        (∀ p ∈ pre, (cfg_parse w cfg_init p).1 = CFG_FILE_ERROR) →
        f ≠ "" → w.files f = .text ss →
        (∀ v, last_value Setting.log_level_value ss = some v →
          (init_preferences w (.ok o) prefs).prefs.log_level =
            (cf_log_level v G_LOG_LEVEL_ERROR).2) ∧
        (last_value Setting.log_level_value ss = none →
          (init_preferences w (.ok o) prefs).prefs.log_level = G_LOG_LEVEL_ERROR)) := by
  rw [init_preferences_result] at hsucc
  obtain ⟨_, hfile, hconf, hprefs⟩ := parse_command_line_success w o prefs hsucc
  have hlvl := (init_preferences_frame w (.ok o) prefs).1
  rw [hprefs] at hlvl
  simp only at hlvl
  refine ⟨?_, ?_, ?_⟩
  · intro hq
    rw [hlvl, if_pos hq]
  · intro hd
    have hq : ¬ o.quiet = true := fun hq => hconf ⟨hq, hd⟩
    rw [hlvl, if_neg hq, if_pos hd]
  · intro hq hd
    have hl : (init_preferences w (.ok o) prefs).prefs.log_level =
        (parse_config_file w { prefs with config_file := o.conf_file }).2.1.log_level := by
      rw [hlvl]
      simp [hq, hd]
    refine ⟨hl, ?_⟩
    intro pre f post ss hc hpre hne hf
    obtain ⟨c, hs, hcl, _⟩ := parse_config_file_used w _ pre f post ss hc hpre hne hf hfile
    have h3 := cfg_setopts_log_level ss cfg_init c hs
    refine ⟨?_, ?_⟩
    · intro v hv
      rw [hl, hcl, h3, hv]
    · intro hv
      rw [hl, hcl, h3, hv]
      rfl

/-- C6 (witness): the file sets `log_level = debug`, the command line passes
`--quiet`: resolution succeeds and the resolved level is ERROR. -/
theorem cli_log_level_witness :
    (init_preferences sample_world (.ok quiet_options) sample_prefs).result = .returned true ∧
    last_value Setting.log_level_value
      [.log_level "debug", .pid_file "~/scmpc.pid", .mpd_port 70000] = some "debug" ∧
    (init_preferences sample_world (.ok quiet_options) sample_prefs).prefs.log_level =
      G_LOG_LEVEL_ERROR :=
  ⟨by decide, by decide,
    (cli_log_level sample_world quiet_options sample_prefs (by decide)).1 (by decide)⟩

/-- C7: a command line with both `--debug` and `--quiet` never makes
`init_preferences` return success, whatever the other options, the files and
the environment: it returns failure, or, with `--version`, the process exits
in `parse_command_line` before any resolution. -/
theorem debug_quiet_never_succeeds (w : World) (o : Options) (prefs : Prefs)
    (hd : o.debug = true) (hq : o.quiet = true) :
    (init_preferences w (.ok o) prefs).result ≠ .returned true ∧
    (o.version = false → (init_preferences w (.ok o) prefs).result = .returned false) ∧
    (o.version = true → (init_preferences w (.ok o) prefs).result = .exited 0) := by
  rw [init_preferences_result]
  refine ⟨?_, ?_, ?_⟩
  · intro h
    exact (parse_command_line_success w o prefs h).2.2.1 ⟨hq, hd⟩
  · intro hv
    cases hfile : (parse_config_file w { prefs with config_file := o.conf_file }).1 with
    | false => exact (parse_command_line_file_failure w o prefs hv hfile).1
    | true => exact (parse_command_line_conflict w o prefs hv hfile hq hd).1
  · intro hv
    simp [parse_command_line, hv]

/-- C7 (witness): `--quiet --debug` with a valid config file returns
failure. -/
theorem debug_quiet_never_succeeds_witness :
    (init_preferences sample_world
      (.ok { no_options with quiet := true, debug := true }) sample_prefs).result =
      .returned false :=
  (debug_quiet_never_succeeds sample_world { no_options with quiet := true, debug := true }
    sample_prefs rfl rfl).2.1 rfl

/-- C8: on every successful resolution, with `--pid-file p` the resolved
`pid_file` is exactly `p`, whatever the file says; without it the resolved
`pid_file` is the one the file layer produced: for the file the search used,
the tilde expansion of its (last) `pid_file` value, or of the default
"/var/run/scmpc.pid" when the file does not set the key. -/
theorem cli_pid_file (w : World) (o : Options) (prefs : Prefs)
    (hsucc : (init_preferences w (.ok o) prefs).result = .returned true) :
    (∀ p, o.pid_file = some p → (init_preferences w (.ok o) prefs).prefs.pid_file = some p) ∧
    (o.pid_file = none →
      (init_preferences w (.ok o) prefs).prefs.pid_file =
        (parse_config_file w { prefs with config_file := o.conf_file }).2.1.pid_file ∧
      ∀ (pre : List String) (f : String) (post : List String) (ss : List Setting),
        config_files w { prefs with config_file := o.conf_file } = pre ++ f :: post →
        (∀ p ∈ pre, (cfg_parse w cfg_init p).1 = CFG_FILE_ERROR) →
        f ≠ "" → w.files f = .text ss →
        (init_preferences w (.ok o) prefs).prefs.pid_file =
          some (expand_tilde w
            ((last_value Setting.pid_file_value ss).getD "/var/run/scmpc.pid"))) := by
  rw [init_preferences_result] at hsucc
  obtain ⟨_, hfile, _, hprefs⟩ := parse_command_line_success w o prefs hsucc
  have hpid := (init_preferences_frame w (.ok o) prefs).2.1
  rw [hprefs] at hpid
  simp only at hpid
  refine ⟨?_, ?_⟩
  · intro p hp
    rw [hpid, hp]
  · intro hp
    have hl : (init_preferences w (.ok o) prefs).prefs.pid_file =
        (parse_config_file w { prefs with config_file := o.conf_file }).2.1.pid_file := by
      rw [hpid, hp]
    refine ⟨hl, ?_⟩
    intro pre f post ss hc hpre hne hf
    obtain ⟨c, hs, _, hcp⟩ := parse_config_file_used w _ pre f post ss hc hpre hne hf hfile
    have h3 := cfg_setopts_pid_file ss cfg_init c hs
    rw [hl, hcp, h3]
    rfl

/-- C8 (witness): the file sets `pid_file = ~/scmpc.pid`, the command line
passes `--pid-file /tmp/x.pid`: the resolved `pid_file` is "/tmp/x.pid". -/
theorem cli_pid_file_witness :
    (init_preferences sample_world (.ok pid_file_options) sample_prefs).result =
      .returned true ∧
    (init_preferences sample_world (.ok pid_file_options) sample_prefs).prefs.pid_file =
      some "/tmp/x.pid" :=
  ⟨by decide,
    (cli_pid_file sample_world pid_file_options sample_prefs (by decide)).1 "/tmp/x.pid" rfl⟩

/-! ### The environment layer -/

theorem cfg_parse_env (w : World) (host port : Option String) (cfg : Cfg) (f : String) :
    cfg_parse { w with MPD_HOST := host, MPD_PORT := port } cfg f = cfg_parse w cfg f := rfl

theorem parse_files_loop_env (w : World) (host port : Option String) (l : List String) :
    ∀ cfg, parse_files_loop { w with MPD_HOST := host, MPD_PORT := port } l cfg =
      parse_files_loop w l cfg := by
  induction l with
  | nil => intro cfg; rfl
  | cons f rest ih =>
    intro cfg
    simp only [parse_files_loop, cfg_parse_env, ih]

theorem parse_config_file_env (w : World) (host port : Option String) (prefs : Prefs) :
    parse_config_file { w with MPD_HOST := host, MPD_PORT := port } prefs =
      parse_config_file w prefs := by
  have h : ∀ cfg, parse_files { w with MPD_HOST := host, MPD_PORT := port } prefs cfg =
      parse_files w prefs cfg := by
    intro cfg
    unfold parse_files
    rw [parse_files_loop_env]
    rfl
  unfold parse_config_file
  rw [h]
  rfl

theorem parse_files_loop_frees_env (w : World) (host port : Option String) (l : List String) :
    ∀ cfg, parse_files_loop_frees { w with MPD_HOST := host, MPD_PORT := port } l cfg =
      parse_files_loop_frees w l cfg := by
  induction l with
  | nil => intro cfg; rfl
  | cons f rest ih =>
    intro cfg
    simp only [parse_files_loop_frees, cfg_parse_env, ih]

theorem config_file_released_env (w : World) (host port : Option String) (prefs : Prefs)
    (cfg : Cfg) :
    config_file_released { w with MPD_HOST := host, MPD_PORT := port } prefs cfg =
      config_file_released w prefs cfg := by
  unfold config_file_released
  cases prefs.config_file with
  | none => rfl
  | some f =>
    simp only [parse_files_loop_frees_env]
    rfl

/-- The file and command-line layers do not read `MPD_HOST` or `MPD_PORT`. -/
theorem parse_command_line_env (w : World) (host port : Option String)
    (argv : Except String Options) (prefs : Prefs) :
    parse_command_line { w with MPD_HOST := host, MPD_PORT := port } argv prefs =
      parse_command_line w argv prefs := by
  unfold parse_command_line
  simp only [parse_config_file_env, config_file_released_env]
  rfl

theorem to_gushort_lt (v : Int) : to_gushort v < 65536 := by
  unfold to_gushort
  omega

theorem to_gushort_eq_iff (v : Int) : (to_gushort v : Int) = v ↔ 0 ≤ v ∧ v < 65536 := by
  unfold to_gushort
  omega

theorem strtol_of_no_leading_number (s : String) (h : has_leading_number s = false) :
    strtol s = 0 := by
  have hd : ∀ cs, first_is_digit cs = false → leading_digits cs = [] := by
    intro cs hcs
    cases cs with
    | nil => rfl
    | cons c rest =>
      simp only [first_is_digit] at hcs
      simp [leading_digits, List.takeWhile, hcs]
  unfold has_leading_number at h
  unfold strtol
  generalize List.dropWhile isspace s.toList = cs at h ⊢
  dsimp only
  split at h
  · simp [hd _ h, digits_value, LONG_MIN, LONG_MAX]
  · simp [hd _ h, digits_value, LONG_MIN, LONG_MAX]
  · simp [hd _ h, digits_value, LONG_MIN, LONG_MAX]

/-- C9: on every successful resolution with `MPD_HOST` set to `h` and
`MPD_PORT` unset, the resolved Settings is what the file and command-line
layers produced with `mpd_hostname` replaced by `h` and `mpd_password` by the
empty string (the port and every other field are untouched); with `MPD_HOST`
unset, the environment layer leaves hostname and password unchanged, and with
both variables unset it leaves all of Settings unchanged. -/
theorem env_host_override (w : World) (argv : Except String Options) (prefs : Prefs)
    (hsucc : (init_preferences w argv prefs).result = .returned true) :
    (∀ h, w.MPD_HOST = some h → w.MPD_PORT = none →
      (init_preferences w argv prefs).prefs =
        { (parse_command_line w argv prefs).prefs with
          mpd_password := some "", mpd_hostname := some h }) ∧
    (w.MPD_HOST = none →
      (init_preferences w argv prefs).prefs.mpd_hostname =
        (parse_command_line w argv prefs).prefs.mpd_hostname ∧
      (init_preferences w argv prefs).prefs.mpd_password =
        (parse_command_line w argv prefs).prefs.mpd_password ∧
      (w.MPD_PORT = none →
        (init_preferences w argv prefs).prefs = (parse_command_line w argv prefs).prefs)) := by
  rw [init_preferences_result] at hsucc
  refine ⟨?_, ?_⟩
  · intro h hh hp
    simp only [init_preferences, hsucc, hh, hp]
  · intro hh
    refine ⟨?_, ?_, ?_⟩
    · simp only [init_preferences, hsucc, hh]
      cases w.MPD_PORT <;> rfl
    · simp only [init_preferences, hsucc, hh]
      cases w.MPD_PORT <;> rfl
    · intro hp
      simp only [init_preferences, hsucc, hh, hp]

/-- C9 (witness): with `MPD_HOST=example.org` and no `MPD_PORT`, the hostname
becomes "example.org", the password becomes empty and the port stays the
file's (70000 stored in 16 bits). -/
theorem env_host_override_witness :
    (init_preferences host_world (.ok no_options) sample_prefs).prefs.mpd_hostname =
      some "example.org" ∧
    (init_preferences host_world (.ok no_options) sample_prefs).prefs.mpd_password =
      some "" ∧
    (init_preferences host_world (.ok no_options) sample_prefs).prefs.mpd_port = 4464 := by
  have h := (env_host_override host_world (.ok no_options) sample_prefs (by decide)).1
    "example.org" rfl rfl
  rw [h]
  decide

/-- C10 (counterexample): with `MPD_PORT=70000` resolution succeeds and the
resolved port is 4464, not the number 70000 that the string denotes. -/
theorem env_port_not_the_number :
    (init_preferences port_world (.ok no_options) sample_prefs).result = .returned true ∧
    strtol "70000" = 70000 ∧
    (init_preferences port_world (.ok no_options) sample_prefs).prefs.mpd_port = 4464 ∧
    ((init_preferences port_world (.ok no_options) sample_prefs).prefs.mpd_port : Int) ≠
      strtol "70000" := by
  decide

/-- C10 (amended): on every successful resolution with `MPD_PORT` set to `s`,
the resolved port is the number `strtol` reads from `s`, reduced modulo
`2 ^ 16` as the field is a `gushort`, whatever port the file gave: it lies in
0..65535 and equals the number read exactly when that number lies in
0..65535; when `s` has no leading decimal number the resolved port is 0; and
the value of `MPD_PORT` never turns success into failure. -/
theorem env_port_override (w : World) (argv : Except String Options) (prefs : Prefs)
    (s : String) (hsucc : (init_preferences w argv prefs).result = .returned true)
    (hs : w.MPD_PORT = some s) :
    (init_preferences w argv prefs).prefs.mpd_port = to_gushort (strtol s) ∧
    (init_preferences w argv prefs).prefs.mpd_port < 65536 ∧
    (((init_preferences w argv prefs).prefs.mpd_port : Int) = strtol s ↔
      0 ≤ strtol s ∧ strtol s < 65536) ∧
    (has_leading_number s = false → (init_preferences w argv prefs).prefs.mpd_port = 0) ∧
    (∀ s2 : Option String,
      (init_preferences { w with MPD_HOST := w.MPD_HOST, MPD_PORT := s2 } argv prefs).result =
        .returned true) := by
  have hres := hsucc
  rw [init_preferences_result] at hsucc
  have hport : (init_preferences w argv prefs).prefs.mpd_port = to_gushort (strtol s) := by
    simp only [init_preferences, hsucc, hs]
  refine ⟨hport, ?_, ?_, ?_, ?_⟩
  · rw [hport]
    exact to_gushort_lt _
  · rw [hport]
    exact to_gushort_eq_iff _
  · intro hn
    rw [hport, strtol_of_no_leading_number s hn]
    rfl
  · intro s2
    rw [init_preferences_result, parse_command_line_env]
    exact hsucc

/-- C10 (witness): with `MPD_PORT=default`, a string without a number,
resolution succeeds and the resolved port is 0. -/
theorem env_port_override_witness :
    (init_preferences word_port_world (.ok no_options) sample_prefs).result =
      .returned true ∧
    (init_preferences word_port_world (.ok no_options) sample_prefs).prefs.mpd_port = 0 :=
  ⟨by decide,
    (env_port_override word_port_world (.ok no_options) sample_prefs "default"
      (by decide) rfl).2.2.2.1 (by decide)⟩

/-! ### Defaults -/

theorem cfg_setopt_get (cfg c : Cfg) (s : Setting) (h : cfg_setopt cfg s = some c) (k : Key) :
    c.get k = (Setting.value_for k s).getD (cfg.get k) := by
  cases s with
  | log_level v =>
    simp only [cfg_setopt] at h
    split_ifs at h with h0
    simp only [Option.some.injEq] at h
    subst h
    have h1 := cf_log_level_snd v cfg.log_level G_LOG_LEVEL_ERROR (by simpa using h0)
    cases k <;> simp [Cfg.get, Setting.value_for, Setting.key, Setting.value, h1]
  | queue_length v =>
    simp only [cfg_setopt] at h
    split_ifs at h
    simp only [Option.some.injEq] at h
    subst h
    cases k <;> simp [Cfg.get, Setting.value_for, Setting.key, Setting.value]
  | cache_interval v =>
    simp only [cfg_setopt] at h
    split_ifs at h
    simp only [Option.some.injEq] at h
    subst h
    cases k <;> simp [Cfg.get, Setting.value_for, Setting.key, Setting.value]
  | mpd_port v =>
    simp only [cfg_setopt] at h
    split_ifs at h
    simp only [Option.some.injEq] at h
    subst h
    cases k <;> simp [Cfg.get, Setting.value_for, Setting.key, Setting.value]
  | mpd_timeout v =>
    simp only [cfg_setopt] at h
    split_ifs at h
    simp only [Option.some.injEq] at h
    subst h
    cases k <;> simp [Cfg.get, Setting.value_for, Setting.key, Setting.value]
  | _ =>
    simp only [cfg_setopt, Option.some.injEq] at h
    subst h
    cases k <;> simp [Cfg.get, Setting.value_for, Setting.key, Setting.value]

/-- After a file is applied, each key holds the value of its last assignment
in the file, or what it held before when the file does not set it. -/
theorem cfg_setopts_get (ss : List Setting) :
    ∀ cfg c, cfg_setopts cfg ss = some c →
      ∀ k, c.get k = (last_value (Setting.value_for k) ss).getD (cfg.get k) := by
  induction ss with
  | nil =>
    intro cfg c h k
    simp [cfg_setopts] at h
    simp [last_value, h]
  | cons s rest ih =>
    intro cfg c h k
    cases hs : cfg_setopt cfg s with
    | none => simp [cfg_setopts, hs] at h
    | some c1 =>
      simp only [cfg_setopts, hs] at h
      rw [ih c1 c h k]
      cases hl : last_value (Setting.value_for k) rest with
      | some v => simp [last_value, hl]
      | none =>
        simp only [last_value, hl, Option.getD_none]
        exact cfg_setopt_get cfg c1 s hs k

/-- The file layer, when the search reaches a valid file `ss` that libconfuse
accepts with the option values `c`. -/
theorem parse_config_file_eq_of_used (w : World) (prefs : Prefs) (pre : List String)
    (f : String) (post : List String) (ss : List Setting) (c : Cfg)
    (hc : config_files w prefs = pre ++ f :: post)
    (hpre : ∀ p ∈ pre, (cfg_parse w cfg_init p).1 = CFG_FILE_ERROR)
    (hne : f ≠ "") (hf : w.files f = .text ss)
    (hs : cfg_setopts cfg_init ss = some c) :
    parse_config_file w prefs =
      (true,
       { prefs with
         log_level := c.log_level
         log_file := some (expand_tilde w c.log_file)
         pid_file := some (expand_tilde w c.pid_file)
         cache_file := some (expand_tilde w c.cache_file)
         queue_length := to_guint c.queue_length
         cache_interval := to_guint c.cache_interval
         mpd_hostname := some c.mpd_host
         mpd_port := to_gushort c.mpd_port
         mpd_timeout := to_gushort c.mpd_timeout
         mpd_password := some c.mpd_password
         as_username := some c.as_username
         as_password := some c.as_password
         as_password_hash := some c.as_password_hash
         fork := true },
       (pre ++ [f]).map Event.cfg_parse) := by
  have hpf := parse_files_used w prefs cfg_init pre f post ss hc hpre hne hf
  rw [hs] at hpf
  simp [parse_config_file, hpf]

theorem parse_config_file_success_of_used (w : World) (prefs : Prefs) (pre : List String)
    (f : String) (post : List String) (ss : List Setting)
    (hc : config_files w prefs = pre ++ f :: post)
    (hpre : ∀ p ∈ pre, (cfg_parse w cfg_init p).1 = CFG_FILE_ERROR)
    (hne : f ≠ "") (hf : w.files f = .text ss)
    (hok : (parse_config_file w prefs).1 = true) :
    ∃ c, cfg_setopts cfg_init ss = some c := by
  obtain ⟨c, hs, _⟩ := parse_config_file_used w prefs pre f post ss hc hpre hne hf hok
  exact ⟨c, hs⟩

theorem expand_tilde_defaults (w : World) :
    expand_tilde w "/var/log/scmpc.log" = "/var/log/scmpc.log" ∧
    expand_tilde w "/var/run/scmpc.pid" = "/var/run/scmpc.pid" ∧
    expand_tilde w "/var/lib/scmpc/scmpc.cache" = "/var/lib/scmpc/scmpc.cache" :=
  ⟨rfl, rfl, rfl⟩

theorem parse_command_line_no_flags (w : World) (prefs : Prefs) (cf : Option String)
    (hfile : (parse_config_file w { prefs with config_file := cf }).1 = true) :
    (parse_command_line w (.ok { no_options with conf_file := cf }) prefs).result =
      .returned true ∧
    (parse_command_line w (.ok { no_options with conf_file := cf }) prefs).prefs =
      (parse_config_file w { prefs with config_file := cf }).2.1 := by
  simp [parse_command_line, no_options, hfile]

theorem init_preferences_no_env (w : World) (argv : Except String Options) (prefs : Prefs)
    (hh : w.MPD_HOST = none) (hp : w.MPD_PORT = none) :
    (init_preferences w argv prefs).prefs = (parse_command_line w argv prefs).prefs := by
  by_cases h : (parse_command_line w argv prefs).result = .returned true
  · simp only [init_preferences, h, hh, hp]
  · rw [init_preferences_of_not_success w argv prefs h]

/-- C11: when the file that the search uses sets no key, the command line has
no flag (a `--config-file` apart) and neither `MPD_HOST` nor `MPD_PORT` is
set, resolution succeeds and Settings holds the compiled-in defaults; and
whenever the file layer succeeds on a file, each Settings field whose key the
file does not set holds its default, whatever other keys the file sets. -/
theorem defaults_for_absent_keys (w : World) (prefs : Prefs) (cf : Option String)
    (pre : List String) (f : String) (post : List String) (ss : List Setting)
    (hc : config_files w { prefs with config_file := cf } = pre ++ f :: post)
    (hpre : ∀ p ∈ pre, (cfg_parse w cfg_init p).1 = CFG_FILE_ERROR)
    (hne : f ≠ "") (hf : w.files f = .text ss) :
    (ss = [] → w.MPD_HOST = none → w.MPD_PORT = none →
      (init_preferences w (.ok { no_options with conf_file := cf }) prefs).result =
        .returned true ∧
      (init_preferences w (.ok { no_options with conf_file := cf }) prefs).prefs =
        { mpd_hostname := some "localhost"
          mpd_port := 6600
          mpd_timeout := 5
          mpd_password := some ""
          fork := true
          log_level := G_LOG_LEVEL_ERROR
          config_file := cf
          log_file := some "/var/log/scmpc.log"
          pid_file := some "/var/run/scmpc.pid"
          as_username := some ""
          as_password := some ""
          as_password_hash := some ""
          cache_file := some "/var/lib/scmpc/scmpc.cache"
          queue_length := 500
          cache_interval := 10 }) ∧
    ((parse_config_file w { prefs with config_file := cf }).1 = true →
      (last_value (Setting.value_for .log_level) ss = none →
        (parse_config_file w { prefs with config_file := cf }).2.1.log_level =
          G_LOG_LEVEL_ERROR) ∧
      (last_value (Setting.value_for .log_file) ss = none →
        (parse_config_file w { prefs with config_file := cf }).2.1.log_file =
          some "/var/log/scmpc.log") ∧
      (last_value (Setting.value_for .pid_file) ss = none →
        (parse_config_file w { prefs with config_file := cf }).2.1.pid_file =
          some "/var/run/scmpc.pid") ∧
      (last_value (Setting.value_for .cache_file) ss = none →
        (parse_config_file w { prefs with config_file := cf }).2.1.cache_file =
          some "/var/lib/scmpc/scmpc.cache") ∧
      (last_value (Setting.value_for .queue_length) ss = none →
        (parse_config_file w { prefs with config_file := cf }).2.1.queue_length = 500) ∧
      (last_value (Setting.value_for .cache_interval) ss = none →
        (parse_config_file w { prefs with config_file := cf }).2.1.cache_interval = 10) ∧
      (last_value (Setting.value_for .mpd_host) ss = none →
        (parse_config_file w { prefs with config_file := cf }).2.1.mpd_hostname =
          some "localhost") ∧
      (last_value (Setting.value_for .mpd_port) ss = none →
        (parse_config_file w { prefs with config_file := cf }).2.1.mpd_port = 6600) ∧
      (last_value (Setting.value_for .mpd_timeout) ss = none →
        (parse_config_file w { prefs with config_file := cf }).2.1.mpd_timeout = 5) ∧
      (last_value (Setting.value_for .mpd_password) ss = none →
        (parse_config_file w { prefs with config_file := cf }).2.1.mpd_password = some "") ∧
      (last_value (Setting.value_for .as_username) ss = none →
        (parse_config_file w { prefs with config_file := cf }).2.1.as_username = some "") ∧
      (last_value (Setting.value_for .as_password) ss = none →
        (parse_config_file w { prefs with config_file := cf }).2.1.as_password = some "") ∧
      (last_value (Setting.value_for .as_password_hash) ss = none →
        (parse_config_file w { prefs with config_file := cf }).2.1.as_password_hash =
          some "") ∧
      (parse_config_file w { prefs with config_file := cf }).2.1.fork = true) := by
  obtain ⟨e1, e2, e3⟩ := expand_tilde_defaults w
  refine ⟨?_, ?_⟩
  · intro hss hh hp
    subst hss
    have heq := parse_config_file_eq_of_used w _ pre f post [] cfg_init hc hpre hne hf rfl
    have hfile : (parse_config_file w { prefs with config_file := cf }).1 = true := by
      rw [heq]
    obtain ⟨h1, h2⟩ := parse_command_line_no_flags w prefs cf hfile
    rw [init_preferences_result, init_preferences_no_env w _ prefs hh hp, h2, heq]
    refine ⟨h1, ?_⟩
    simp only [cfg_init, e1, e2, e3]
    rfl
  · intro hok
    obtain ⟨c, hs⟩ := parse_config_file_success_of_used w _ pre f post ss hc hpre hne hf hok
    have heq := parse_config_file_eq_of_used w _ pre f post ss c hc hpre hne hf hs
    have hget := cfg_setopts_get ss cfg_init c hs
    rw [heq]
    refine ⟨?_, ?_, ?_, ?_, ?_, ?_, ?_, ?_, ?_, ?_, ?_, ?_, ?_, rfl⟩
    · intro h
      have := hget .log_level
      rw [h] at this
      simp only [Cfg.get, Option.getD_none, Value.level.injEq] at this
      simp only [this]
      rfl
    · intro h
      have := hget .log_file
      rw [h] at this
      simp only [Cfg.get, Option.getD_none, Value.str.injEq] at this
      simp only [this]
      exact congrArg some e1
    · intro h
      have := hget .pid_file
      rw [h] at this
      simp only [Cfg.get, Option.getD_none, Value.str.injEq] at this
      simp only [this]
      exact congrArg some e2
    · intro h
      have := hget .cache_file
      rw [h] at this
      simp only [Cfg.get, Option.getD_none, Value.str.injEq] at this
      simp only [this]
      exact congrArg some e3
    · intro h
      have := hget .queue_length
      rw [h] at this
      simp only [Cfg.get, Option.getD_none, Value.num.injEq] at this
      simp only [this]
      rfl
    · intro h
      have := hget .cache_interval
      rw [h] at this
      simp only [Cfg.get, Option.getD_none, Value.num.injEq] at this
      simp only [this]
      rfl
    · intro h
      have := hget .mpd_host
      rw [h] at this
      simp only [Cfg.get, Option.getD_none, Value.str.injEq] at this
      simp only [this]
      rfl
    · intro h
      have := hget .mpd_port
      rw [h] at this
      simp only [Cfg.get, Option.getD_none, Value.num.injEq] at this
      simp only [this]
      rfl
    · intro h
      have := hget .mpd_timeout
      rw [h] at this
      simp only [Cfg.get, Option.getD_none, Value.num.injEq] at this
      simp only [this]
      rfl
    · intro h
      have := hget .mpd_password
      rw [h] at this
      simp only [Cfg.get, Option.getD_none, Value.str.injEq] at this
      simp only [this]
      rfl
    · intro h
      have := hget .as_username
      rw [h] at this
      simp only [Cfg.get, Option.getD_none, Value.str.injEq] at this
      simp only [this]
      rfl
    · intro h
      have := hget .as_password
      rw [h] at this
      simp only [Cfg.get, Option.getD_none, Value.str.injEq] at this
      simp only [this]
      rfl
    · intro h
      have := hget .as_password_hash
      rw [h] at this
      simp only [Cfg.get, Option.getD_none, Value.str.injEq] at this
      simp only [this]
      rfl

/-- C11 (witness): the only file, "/etc/scmpc.conf", sets no key; with no
flag and no `MPD_*` variable resolution succeeds and Settings holds the
defaults. -/
theorem defaults_for_absent_keys_witness :
    (init_preferences empty_file_world (.ok no_options) sample_prefs).result =
      .returned true ∧
    (init_preferences empty_file_world (.ok no_options) sample_prefs).prefs =
      { mpd_hostname := some "localhost"
        mpd_port := 6600
        mpd_timeout := 5
        mpd_password := some ""
        fork := true
        log_level := G_LOG_LEVEL_ERROR
        config_file := none
        log_file := some "/var/log/scmpc.log"
        pid_file := some "/var/run/scmpc.pid"
        as_username := some ""
        as_password := some ""
        as_password_hash := some ""
        cache_file := some "/var/lib/scmpc/scmpc.cache"
        queue_length := 500
        cache_interval := 10 } :=
  (defaults_for_absent_keys empty_file_world sample_prefs none
    ["/home/u/.scmpcrc", "/home/u/.scmpc/scmpc.conf"] "/etc/scmpc.conf" [] []
    (by decide) (by decide) (by decide) (by decide)).1 rfl rfl rfl

/-! ### Tilde expansion -/

theorem expand_tilde_of_tilde (w : World) (p : String) (rest : List Char)
    (h : p.toList = '~' :: rest) :
    expand_tilde w p = w.HOME.getD w.g_get_home_dir ++ String.mk rest := by
  unfold expand_tilde
  rw [h]
  cases w.HOME <;> rfl

theorem expand_tilde_of_not_tilde (w : World) (p : String)
    (h : p.toList.head? ≠ some '~') : expand_tilde w p = p := by
  unfold expand_tilde
  split
  · rename_i rest heq
    rw [heq] at h
    simp at h
  · rfl

/-- C12 (counterexample): with `HOME` set to the empty string, which does not
begin with '~', expanding "~~/x" gives "~/x" and expanding that again gives
"/x": the expansion is not idempotent. -/
theorem expand_tilde_not_idempotent_empty_home :
    empty_home_world.HOME = some "" ∧
    expand_tilde empty_home_world "~~/x" = "~/x" ∧
    expand_tilde empty_home_world (expand_tilde empty_home_world "~~/x") = "/x" ∧
    expand_tilde empty_home_world (expand_tilde empty_home_world "~~/x") ≠
      expand_tilde empty_home_world "~~/x" := by
  decide

/-- C12 (amended): `log_file`, `pid_file` and `cache_file` are stored
tilde-expanded; `expand_tilde p` is `home` followed by `p` without its first
character when `p` begins with '~' (`home` being `HOME` when set, else the
platform home directory) and is `p` itself when `p` does not begin with '~',
the empty path included; so a path without leading '~' is a fixed point, and
the expansion is idempotent whenever `home` is not empty and does not begin
with '~'. -/
theorem expand_tilde_spec (w : World) (p : String) :
    (∀ rest, p.toList = '~' :: rest →
      expand_tilde w p = w.HOME.getD w.g_get_home_dir ++ String.mk rest) ∧
    (p.toList.head? ≠ some '~' → expand_tilde w p = p) ∧
    expand_tilde w "" = "" ∧
    (w.HOME.getD w.g_get_home_dir ≠ "" →
      (w.HOME.getD w.g_get_home_dir).toList.head? ≠ some '~' →
      expand_tilde w (expand_tilde w p) = expand_tilde w p) ∧
    (∀ prefs, (parse_config_file w prefs).1 = true →
      (parse_config_file w prefs).2.1.log_file =
        some (expand_tilde w (parse_files w prefs cfg_init).2.1.log_file) ∧
      (parse_config_file w prefs).2.1.pid_file =
        some (expand_tilde w (parse_files w prefs cfg_init).2.1.pid_file) ∧
      (parse_config_file w prefs).2.1.cache_file =
        some (expand_tilde w (parse_files w prefs cfg_init).2.1.cache_file)) := by
  refine ⟨expand_tilde_of_tilde w p, expand_tilde_of_not_tilde w p, rfl, ?_, ?_⟩
  · intro hne hhead
    cases hp : p.toList with
    | nil =>
      have h1 : expand_tilde w p = p := expand_tilde_of_not_tilde w p (by rw [hp]; simp)
      rw [h1, h1]
    | cons a rest =>
      by_cases ha : a = '~'
      · subst ha
        rw [expand_tilde_of_tilde w p rest hp]
        apply expand_tilde_of_not_tilde
        have hh : (w.HOME.getD w.g_get_home_dir).toList ≠ [] := by
          intro h0
          apply hne
          apply String.ext
          simpa using h0
        cases hl : (w.HOME.getD w.g_get_home_dir).toList with
        | nil => exact absurd hl hh
        | cons b t =>
          rw [hl] at hhead
          have : (w.HOME.getD w.g_get_home_dir ++ String.mk rest).toList = b :: (t ++ rest) := by
            have h2 : (w.HOME.getD w.g_get_home_dir).data = b :: t := hl
            simp [String.toList, String.data_append, h2]
          rw [this]
          simpa using hhead
      · have h1 : expand_tilde w p = p := expand_tilde_of_not_tilde w p (by
          rw [hp]
          simpa using ha)
        rw [h1, h1]
  · intro prefs hok
    unfold parse_config_file at hok ⊢
    by_cases h1 : (parse_files w prefs cfg_init).1 = false
    · simp [h1] at hok
    · simp [h1]

/-- C12 (witness): with `HOME=/home/u`, "~/scmpc.pid" expands to
"/home/u/scmpc.pid", "/tmp/x" is unchanged, and expanding twice gives what
expanding once gives. -/
theorem expand_tilde_spec_witness :
    expand_tilde sample_world "~/scmpc.pid" = "/home/u/scmpc.pid" ∧
    expand_tilde sample_world "/tmp/x" = "/tmp/x" ∧
    expand_tilde sample_world (expand_tilde sample_world "~/scmpc.pid") =
      expand_tilde sample_world "~/scmpc.pid" :=
  ⟨(expand_tilde_spec sample_world "~/scmpc.pid").1 "/scmpc.pid".toList (by decide),
   (expand_tilde_spec sample_world "/tmp/x").2.1 (by decide),
   (expand_tilde_spec sample_world "~/scmpc.pid").2.2.2.1 (by decide) (by decide)⟩

/-! ### Order of events: `--version` and `--kill` -/

theorem parse_files_loop_events (w : World) (l : List String) :
    ∀ cfg, ∀ e ∈ (parse_files_loop w l cfg).2.2, ∃ f, e = Event.cfg_parse f := by
  induction l with
  | nil =>
    intro cfg e he
    simp [parse_files_loop] at he
  | cons g rest ih =>
    intro cfg e he
    simp only [parse_files_loop] at he
    split_ifs at he with h1 h2 h3
    · simp only [List.mem_singleton] at he
      exact ⟨g, he⟩
    · simp only [List.mem_cons] at he
      rcases he with rfl | he
      · exact ⟨g, rfl⟩
      · exact ih _ e he
    · simp only [List.mem_singleton] at he
      exact ⟨g, he⟩
    · simp only [List.mem_singleton] at he
      exact ⟨g, he⟩

theorem parse_config_file_events (w : World) (prefs : Prefs) :
    ∀ e ∈ (parse_config_file w prefs).2.2, ∃ f, e = Event.cfg_parse f := by
  intro e he
  have h : (parse_config_file w prefs).2.2 = (parse_files w prefs cfg_init).2.2 := by
    unfold parse_config_file
    by_cases h1 : (parse_files w prefs cfg_init).1 = false <;> simp [h1]
  rw [h] at he
  exact parse_files_loop_events w _ cfg_init e he

theorem parse_config_file_fork (w : World) (prefs : Prefs)
    (h : (parse_config_file w prefs).1 = true) : (parse_config_file w prefs).2.1.fork = true := by
  unfold parse_config_file at h ⊢
  by_cases h1 : (parse_files w prefs cfg_init).1 = false
  · simp [h1] at h
  · simp [h1]

theorem parse_config_file_config_file (w : World) (prefs : Prefs) :
    (parse_config_file w prefs).2.1.config_file = prefs.config_file := by
  unfold parse_config_file
  by_cases h1 : (parse_files w prefs cfg_init).1 = false <;> simp [h1]

/-- Where `kill_scmpc` appears among the events of `parse_command_line`. -/
theorem parse_command_line_kill (w : World) (o : Options) (prefs : Prefs)
    (pid : Option String)
    (hk : Event.kill_scmpc pid ∈ (parse_command_line w (.ok o) prefs).trace) :
    o.dokill = true ∧ o.version = false ∧
    (parse_config_file w { prefs with config_file := o.conf_file }).1 = true ∧
    ¬ (o.quiet = true ∧ o.debug = true) ∧
    (parse_command_line w (.ok o) prefs).result ≠ .returned false ∧
    pid = (parse_command_line w (.ok o) prefs).prefs.pid_file ∧
    (parse_command_line w (.ok o) prefs).trace =
      (parse_config_file w { prefs with config_file := o.conf_file }).2.2 ++
        [Event.kill_scmpc pid] := by
  have hev := parse_config_file_events w { prefs with config_file := o.conf_file }
  have hno : Event.kill_scmpc pid ∉
      (parse_config_file w { prefs with config_file := o.conf_file }).2.2 := by
    intro hmem
    obtain ⟨f, hf⟩ := hev _ hmem
    cases hf
  cases hv : o.version with
  | true => simp [parse_command_line, hv, version_text] at hk
  | false =>
    cases hfile : (parse_config_file w { prefs with config_file := o.conf_file }).1 with
    | false =>
      simp only [parse_command_line, hv, hfile] at hk
      exact absurd hk hno
    | true =>
      by_cases hconf : o.quiet = true ∧ o.debug = true
      · simp only [parse_command_line, hv, hfile, hconf.1, hconf.2] at hk
        exact absurd hk hno
      · cases hd : o.dokill with
        | false =>
          cases hq : o.quiet <;> cases hdb : o.debug <;>
            simp_all [parse_command_line]
        | true =>
          refine ⟨rfl, rfl, rfl, hconf, ?_⟩
          cases hq : o.quiet <;> cases hdb : o.debug <;> cases hf : o.fork <;>
            cases hp : o.pid_file <;>
            simp only [parse_command_line, hv, hfile, hq, hdb, hd, hf, hp] at hk ⊢ <;>
            simp_all <;>
            (split at hk <;> simp_all)

theorem init_preferences_kill_mem (w : World) (argv : Except String Options) (prefs : Prefs)
    (pid : Option String) :
    Event.kill_scmpc pid ∈ (init_preferences w argv prefs).trace ↔
      Event.kill_scmpc pid ∈ (parse_command_line w argv prefs).trace := by
  by_cases h : (parse_command_line w argv prefs).result = .returned true
  · simp only [init_preferences, h]
    cases w.MPD_PORT <;> simp
  · rw [init_preferences_of_not_success w argv prefs h]

/-- C15: whenever `kill_scmpc` is invoked during `init_preferences`, the
command line was accepted and has `--kill` and no `--version`, the file layer
has succeeded (its `cfg_parse` calls are exactly the events before the
invocation), there is no `--quiet`/`--debug` conflict, the call does not end
in failure, and the `pid_file` at the invocation is the resolved one: the
`--pid-file` argument when given, otherwise the file layer's value, which is
the tilde expansion of the file's `pid_file` or of the default. -/
theorem kill_after_resolution (w : World) (argv : Except String Options) (prefs : Prefs)
    (pid : Option String)
    (hk : Event.kill_scmpc pid ∈ (init_preferences w argv prefs).trace) :
    ∃ o, argv = .ok o ∧ o.dokill = true ∧ o.version = false ∧
      (parse_config_file w { prefs with config_file := o.conf_file }).1 = true ∧
      ¬ (o.quiet = true ∧ o.debug = true) ∧
      (init_preferences w argv prefs).result ≠ .returned false ∧
      pid = (init_preferences w argv prefs).prefs.pid_file ∧
      (∀ p, o.pid_file = some p → pid = some p) ∧
      (o.pid_file = none →
        pid = (parse_config_file w { prefs with config_file := o.conf_file }).2.1.pid_file ∧
        ∀ (pre : List String) (f : String) (post : List String) (ss : List Setting),
          config_files w { prefs with config_file := o.conf_file } = pre ++ f :: post →
          (∀ p ∈ pre, (cfg_parse w cfg_init p).1 = CFG_FILE_ERROR) →
          f ≠ "" → w.files f = .text ss →
          pid = some (expand_tilde w
            ((last_value Setting.pid_file_value ss).getD "/var/run/scmpc.pid"))) ∧
      (parse_command_line w argv prefs).trace =
        (parse_config_file w { prefs with config_file := o.conf_file }).2.2 ++
          [Event.kill_scmpc pid] := by
  rw [init_preferences_kill_mem] at hk
  cases argv with
  | error msg => simp [parse_command_line] at hk
  | ok o =>
    obtain ⟨hd, hv, hfile, hconf, hres, hpid, htr⟩ := parse_command_line_kill w o prefs pid hk
    have hframe := (init_preferences_frame w (.ok o) prefs).2.1
    refine ⟨o, rfl, hd, hv, hfile, hconf, ?_, ?_, ?_, ?_, htr⟩
    · rw [init_preferences_result]
      exact hres
    · rw [hframe]
      exact hpid
    · intro p hp
      rw [hpid]
      simp only [parse_command_line, hv, hfile, hp]
      cases hq : o.quiet <;> cases hdb : o.debug <;> cases hf : o.fork <;>
        simp_all <;> (split <;> rfl)
    · intro hp
      have h1 : pid =
          (parse_config_file w { prefs with config_file := o.conf_file }).2.1.pid_file := by
        rw [hpid]
        simp only [parse_command_line, hv, hfile, hp]
        cases hq : o.quiet <;> cases hdb : o.debug <;> cases hf : o.fork <;>
          simp_all <;> (split <;> rfl)
      refine ⟨h1, ?_⟩
      intro pre f post ss hc hpre hne hf
      obtain ⟨c, hs, _, hcp⟩ := parse_config_file_used w _ pre f post ss hc hpre hne hf hfile
      rw [h1, hcp, cfg_setopts_pid_file ss cfg_init c hs]
      rfl

/-- C15 (witness): with `--kill --pid-file /tmp/x.pid` and a valid file,
`kill_scmpc` is invoked with "/tmp/x.pid", after the three `cfg_parse`
calls of the file layer. -/
theorem kill_after_resolution_witness :
    Event.kill_scmpc (some "/tmp/x.pid") ∈
      (init_preferences sample_world (.ok kill_options) sample_prefs).trace ∧
    kill_options.dokill = true ∧
    (init_preferences sample_world (.ok kill_options) sample_prefs).result ≠
      .returned false := by
  obtain ⟨o, h1, h2, _, _, _, h3, _⟩ := kill_after_resolution sample_world
    (.ok kill_options) sample_prefs (some "/tmp/x.pid") (by decide)
  cases h1
  exact ⟨by decide, h2, h3⟩

/-! ### The fork flag and the config file path -/

/-- C16: on every successful resolution the resolved `fork` is the value of
the command-line local `fork`, which `--foreground` sets to FALSE and which
is TRUE otherwise: it is false if and only if `--foreground` was given,
whatever the file says and whatever `fork` held before. -/
theorem fork_flag_resolved (w : World) (o : Options) (prefs : Prefs)
    (hsucc : (init_preferences w (.ok o) prefs).result = .returned true) :
    (init_preferences w (.ok o) prefs).prefs.fork = o.fork ∧
    ((init_preferences w (.ok o) prefs).prefs.fork = false ↔ o.fork = false) ∧
    (o.fork = true → (init_preferences w (.ok o) prefs).prefs.fork = true) := by
  rw [init_preferences_result] at hsucc
  obtain ⟨_, hfile, _, hprefs⟩ := parse_command_line_success w o prefs hsucc
  have hfork := (init_preferences_frame w (.ok o) prefs).2.2.1
  rw [hprefs] at hfork
  simp only at hfork
  have hP := parse_config_file_fork w _ hfile
  have h1 : (init_preferences w (.ok o) prefs).prefs.fork = o.fork := by
    rw [hfork, hP]
    cases o.fork <;> rfl
  exact ⟨h1, by rw [h1], fun h => by rw [h1, h]⟩

/-- C16 (witness): `fork` was false before and the command line has no
`--foreground`: the resolved `fork` is true; with `--foreground` it is
false. -/
theorem fork_flag_resolved_witness :
    sample_prefs.fork = false ∧
    (init_preferences sample_world (.ok no_options) sample_prefs).prefs.fork = true ∧
    (init_preferences sample_world (.ok foreground_options) sample_prefs).prefs.fork =
      false :=
  ⟨rfl, (fork_flag_resolved sample_world no_options sample_prefs (by decide)).2.2 rfl,
    (fork_flag_resolved sample_world foreground_options sample_prefs (by decide)).2.1.2 rfl⟩

/-! ### Running the file layer again -/

theorem parse_files_loop_frees_of_success (w : World) (l : List String) :
    ∀ cfg, (parse_files_loop w l cfg).1 = true → parse_files_loop_frees w l cfg = true := by
  induction l with
  | nil =>
    intro cfg h
    simp [parse_files_loop] at h
  | cons g rest ih =>
    intro cfg h
    simp only [parse_files_loop] at h
    simp only [parse_files_loop_frees]
    split_ifs at h ⊢ with h1 h2 h3
    · exact ih _ h
    · rfl

theorem parse_files_congr (w : World) (prefs prefs2 : Prefs) (cfg : Cfg)
    (h : prefs2.config_file = prefs.config_file) :
    parse_files w prefs2 cfg = parse_files w prefs cfg := by
  unfold parse_files config_files
  rw [h]

/-- The file layer reads nothing of Settings but `config_file`, and on
success writes every other field. -/
theorem parse_config_file_congr (w : World) (prefs prefs2 : Prefs)
    (h : prefs2.config_file = prefs.config_file)
    (hok : (parse_config_file w prefs).1 = true) :
    parse_config_file w prefs2 = parse_config_file w prefs := by
  unfold parse_config_file at hok ⊢
  rw [parse_files_congr w prefs prefs2 cfg_init h]
  by_cases h1 : (parse_files w prefs cfg_init).1 = false
  · simp [h1] at hok
  · simp [h1, h]

/-- C14: one successful run of `parse_config_file` replaces every field but
`config_file` by values that depend only on the file used and on `home`, not
on the state before; when `config_file` is NULL a second run gives what the
first gave. When `config_file` is an explicit path, the first successful run
ends with `free_config_files` releasing the string `config_file` points to
(`config_files[0]` is that pointer, not a copy), while `config_file` stays
non-NULL: a second run would hand the released string to `cfg_parse`. -/
theorem parse_config_file_again (w : World) (prefs : Prefs)
    (hok : (parse_config_file w prefs).1 = true) :
    (∀ prefs2, prefs2.config_file = prefs.config_file →
      parse_config_file w prefs2 = parse_config_file w prefs) ∧
    (∀ (pre : List String) (f : String) (post : List String) (ss : List Setting)
      (prefs2 : Prefs) (pre2 : List String) (f2 : String) (post2 : List String),
      config_files w prefs = pre ++ f :: post →
      (∀ p ∈ pre, (cfg_parse w cfg_init p).1 = CFG_FILE_ERROR) →
      f ≠ "" → w.files f = .text ss →
      config_files w prefs2 = pre2 ++ f2 :: post2 →
      (∀ p ∈ pre2, (cfg_parse w cfg_init p).1 = CFG_FILE_ERROR) →
      f2 ≠ "" → w.files f2 = .text ss →
      (parse_config_file w prefs2).1 = true ∧
      (parse_config_file w prefs2).2.1 =
        { (parse_config_file w prefs).2.1 with config_file := prefs2.config_file }) ∧
    (prefs.config_file = none →
      parse_config_file w (parse_config_file w prefs).2.1 = parse_config_file w prefs) ∧
    (∀ f, prefs.config_file = some f →
      config_file_released w prefs cfg_init = true ∧
      (parse_config_file w prefs).2.1.config_file = some f) := by
  refine ⟨?_, ?_, ?_, ?_⟩
  · intro prefs2 h
    exact parse_config_file_congr w prefs prefs2 h hok
  · intro pre f post ss prefs2 pre2 f2 post2 hc hpre hne hf hc2 hpre2 hne2 hf2
    obtain ⟨c, hs⟩ := parse_config_file_success_of_used w prefs pre f post ss hc hpre hne hf hok
    rw [parse_config_file_eq_of_used w prefs pre f post ss c hc hpre hne hf hs,
      parse_config_file_eq_of_used w prefs2 pre2 f2 post2 ss c hc2 hpre2 hne2 hf2 hs]
    exact ⟨rfl, rfl⟩
  · intro _
    exact parse_config_file_congr w prefs _ (parse_config_file_config_file w prefs) hok
  · intro f hf
    refine ⟨?_, ?_⟩
    · have h1 : (parse_files w prefs cfg_init).1 = true := by
        unfold parse_config_file at hok
        by_cases h2 : (parse_files w prefs cfg_init).1 = false
        · simp [h2] at hok
        · simpa using h2
      simp only [config_file_released, hf]
      exact parse_files_loop_frees_of_success w _ cfg_init h1
    · rw [parse_config_file_config_file, hf]

/-- C14 (witness): with the explicit path "/etc/scmpc.conf", a valid file,
the first run succeeds, releases the string `config_file` points to and
leaves `config_file` non-NULL. -/
theorem parse_config_file_again_witness :
    config_file_released sample_world explicit_prefs cfg_init = true ∧
    (parse_config_file sample_world explicit_prefs).2.1.config_file =
      some "/etc/scmpc.conf" :=
  (parse_config_file_again sample_world explicit_prefs (by decide)).2.2.2
    "/etc/scmpc.conf" rfl

/-! ### Sixteen-bit port and timeout -/

theorem last_value_mem {α : Type} (g : Setting → Option α) (ss : List Setting) (v : α)
    (h : last_value g ss = some v) : ∃ s ∈ ss, g s = some v := by
  induction ss with
  | nil => simp [last_value] at h
  | cons s rest ih =>
    simp only [last_value] at h
    cases hl : last_value g rest with
    | some x =>
      rw [hl] at h
      simp only [Option.some.injEq] at h
      subst h
      obtain ⟨t, ht, hg⟩ := ih hl
      exact ⟨t, List.mem_cons_of_mem _ ht, hg⟩
    | none =>
      rw [hl] at h
      exact ⟨s, List.mem_cons_self _ _, h⟩

theorem mpd_port_of_value_for (s : Setting) (p : Int)
    (h : Setting.value_for .mpd_port s = some (.num p)) : s = .mpd_port p := by
  cases s <;> simp [Setting.value_for, Setting.key, Setting.value] at h
  rw [h]

theorem mpd_timeout_of_value_for (s : Setting) (p : Int)
    (h : Setting.value_for .mpd_timeout s = some (.num p)) : s = .mpd_timeout p := by
  cases s <;> simp [Setting.value_for, Setting.key, Setting.value] at h
  rw [h]

theorem cfg_setopt_negative (p : Int) (hp : to_gint p < 0) (cfg : Cfg) :
    cfg_setopt cfg (.mpd_port p) = none ∧ cfg_setopt cfg (.mpd_timeout p) = none := by
  have h1 : cf_validate_num p ≠ 0 := (cf_validate_num_ne_zero p).2 hp
  simp [cfg_setopt, h1]

/-- A port or timeout that an accepted file sets is not negative as a
`gint`. -/
theorem accepted_port_timeout_nonneg (ss : List Setting) (cfg c : Cfg)
    (hs : cfg_setopts cfg ss = some c) (p : Int) :
    (last_value (Setting.value_for .mpd_port) ss = some (.num p) → 0 ≤ to_gint p) ∧
    (last_value (Setting.value_for .mpd_timeout) ss = some (.num p) → 0 ≤ to_gint p) := by
  refine ⟨?_, ?_⟩
  · intro h
    obtain ⟨s, hmem, hv⟩ := last_value_mem _ ss _ h
    have hs2 := mpd_port_of_value_for s p hv
    subst hs2
    by_contra hneg
    have := cfg_setopts_none_of_mem _ (fun c0 => (cfg_setopt_negative p (by omega) c0).1)
      ss hmem cfg
    rw [this] at hs
    cases hs
  · intro h
    obtain ⟨s, hmem, hv⟩ := last_value_mem _ ss _ h
    have hs2 := mpd_timeout_of_value_for s p hv
    subst hs2
    by_contra hneg
    have := cfg_setopts_none_of_mem _ (fun c0 => (cfg_setopt_negative p (by omega) c0).2)
      ss hmem cfg
    rw [this] at hs
    cases hs

theorem to_gushort_cast (v : Int) : (to_gushort v : Int) = v % 65536 := by
  unfold to_gushort
  omega

theorem parse_config_file_port_timeout (w : World) (prefs : Prefs)
    (h : (parse_config_file w prefs).1 = true) :
    (parse_config_file w prefs).2.1.mpd_port =
      to_gushort (parse_files w prefs cfg_init).2.1.mpd_port ∧
    (parse_config_file w prefs).2.1.mpd_timeout =
      to_gushort (parse_files w prefs cfg_init).2.1.mpd_timeout := by
  unfold parse_config_file at h ⊢
  by_cases h1 : (parse_files w prefs cfg_init).1 = false
  · simp [h1] at h
  · simp [h1]

/-- On success the port and the timeout are the file layer's, the port being
replaced by the environment layer when `MPD_PORT` is set. -/
theorem init_preferences_port_timeout (w : World) (o : Options) (prefs : Prefs)
    (hsucc : (parse_command_line w (.ok o) prefs).result = .returned true) :
    (init_preferences w (.ok o) prefs).prefs.mpd_timeout =
      (parse_config_file w { prefs with config_file := o.conf_file }).2.1.mpd_timeout ∧
    (w.MPD_PORT = none →
      (init_preferences w (.ok o) prefs).prefs.mpd_port =
        (parse_config_file w { prefs with config_file := o.conf_file }).2.1.mpd_port) ∧
    (∀ s, w.MPD_PORT = some s →
      (init_preferences w (.ok o) prefs).prefs.mpd_port = to_gushort (strtol s)) := by
  obtain ⟨_, _, _, hprefs⟩ := parse_command_line_success w o prefs hsucc
  refine ⟨?_, ?_, ?_⟩
  · simp only [init_preferences, hsucc]
    cases w.MPD_PORT <;> cases w.MPD_HOST <;> simp [hprefs]
  · intro hp
    simp only [init_preferences, hsucc, hp]
    cases w.MPD_HOST <;> simp [hprefs]
  · intro s hp
    simp only [init_preferences, hsucc, hp]

/-! ### The key `mpd.interval` -/

theorem cfg_setopt_without_interval (c1 c2 : Cfg) (s1 s2 : Setting)
    (hc : c1.without_interval = c2.without_interval)
    (hs : s1.without_interval = s2.without_interval) :
    (cfg_setopt c1 s1).map Cfg.without_interval =
      (cfg_setopt c2 s2).map Cfg.without_interval := by
  obtain ⟨a1, a2, a3, a4, a5, a6, a7, a8, a9, a10, a11, a12, a13, a14⟩ := c1
  obtain ⟨b1, b2, b3, b4, b5, b6, b7, b8, b9, b10, b11, b12, b13, b14⟩ := c2
  simp only [Cfg.without_interval, Cfg.mk.injEq, and_true, true_and] at hc
  obtain ⟨h1, h2, h3, h4, h5, h6, h7, h8, h9, h11, h12, h13, h14⟩ := hc
  subst h1 h2 h3 h4 h5 h6 h7 h8 h9 h11 h12 h13 h14
  cases s1 <;> cases s2 <;> simp [Setting.without_interval] at hs <;>
    (try subst hs) <;> simp [cfg_setopt, Cfg.without_interval]

theorem cfg_setopts_without_interval (ss1 : List Setting) :
    ∀ (ss2 : List Setting) (c1 c2 : Cfg),
      c1.without_interval = c2.without_interval →
      ss1.map Setting.without_interval = ss2.map Setting.without_interval →
      (cfg_setopts c1 ss1).map Cfg.without_interval =
        (cfg_setopts c2 ss2).map Cfg.without_interval := by
  induction ss1 with
  | nil =>
    intro ss2 c1 c2 hc hs
    cases ss2 with
    | nil => simp [cfg_setopts, hc]
    | cons t rest => simp at hs
  | cons s1 rest1 ih =>
    intro ss2 c1 c2 hc hs
    cases ss2 with
    | nil => simp at hs
    | cons s2 rest2 =>
      simp only [List.map_cons, List.cons.injEq] at hs
      have h1 := cfg_setopt_without_interval c1 c2 s1 s2 hc hs.1
      cases hs1 : cfg_setopt c1 s1 with
      | none =>
        cases hs2 : cfg_setopt c2 s2 with
        | none => simp [cfg_setopts, hs1, hs2]
        | some d2 => simp [hs1, hs2] at h1
      | some d1 =>
        cases hs2 : cfg_setopt c2 s2 with
        | none => simp [hs1, hs2] at h1
        | some d2 =>
          simp only [hs1, hs2, Option.map_some', Option.some.injEq] at h1
          simp only [cfg_setopts, hs1, hs2]
          exact ih rest2 d1 d2 h1 hs.2

/-- Parsing one candidate in two file systems whose files differ only in the
values of `mpd.interval`: same return code, same option values up to
`mpd.interval`. -/
theorem cfg_parse_without_interval (w : World) (files2 : String → FileState)
    (h : ∀ p, (w.files p).without_interval = (files2 p).without_interval)
    (c1 c2 : Cfg) (hc : c1.without_interval = c2.without_interval) (f : String) :
    (cfg_parse { w with files := files2 } c2 f).1 = (cfg_parse w c1 f).1 ∧
    (cfg_parse { w with files := files2 } c2 f).2.without_interval =
      (cfg_parse w c1 f).2.without_interval := by
  unfold cfg_parse
  by_cases h0 : f = ""
  · simp [h0, hc]
  · simp only [if_neg h0]
    have hf := h f
    cases h1 : w.files f with
    | missing =>
      cases h2 : files2 f with
      | missing => simp [hc]
      | malformed => simp [h1, h2, FileState.without_interval] at hf
      | text ss2 => simp [h1, h2, FileState.without_interval] at hf
    | malformed =>
      cases h2 : files2 f with
      | missing => simp [h1, h2, FileState.without_interval] at hf
      | malformed => simp [hc]
      | text ss2 => simp [h1, h2, FileState.without_interval] at hf
    | text ss1 =>
      cases h2 : files2 f with
      | missing => simp [h1, h2, FileState.without_interval] at hf
      | malformed => simp [h1, h2, FileState.without_interval] at hf
      | text ss2 =>
        simp only [h1, h2, FileState.without_interval, FileState.text.injEq] at hf
        have h3 := cfg_setopts_without_interval ss1 ss2 c1 c2 hc hf
        cases hs1 : cfg_setopts c1 ss1 with
        | none =>
          cases hs2 : cfg_setopts c2 ss2 with
          | none => simp [hs1, hs2, hc]
          | some d2 => simp [hs1, hs2] at h3
        | some d1 =>
          cases hs2 : cfg_setopts c2 ss2 with
          | none => simp [hs1, hs2] at h3
          | some d2 =>
            simp only [hs1, hs2, Option.map_some', Option.some.injEq] at h3
            simp [hs1, hs2, h3]

theorem parse_files_loop_without_interval (w : World) (files2 : String → FileState)
    (h : ∀ p, (w.files p).without_interval = (files2 p).without_interval)
    (l : List String) :
    ∀ (c1 c2 : Cfg), c1.without_interval = c2.without_interval →
      (parse_files_loop { w with files := files2 } l c2).1 = (parse_files_loop w l c1).1 ∧
      (parse_files_loop { w with files := files2 } l c2).2.1.without_interval =
        (parse_files_loop w l c1).2.1.without_interval ∧
      (parse_files_loop { w with files := files2 } l c2).2.2 =
        (parse_files_loop w l c1).2.2 := by
  induction l with
  | nil =>
    intro c1 c2 hc
    simp [parse_files_loop, hc]
  | cons f rest ih =>
    intro c1 c2 hc
    obtain ⟨h1, h2⟩ := cfg_parse_without_interval w files2 h c1 c2 hc f
    have ih2 := ih (cfg_parse w c1 f).2 (cfg_parse { w with files := files2 } c2 f).2
      h2.symm
    simp only [parse_files_loop, h1]
    split_ifs
    · simp [h2]
    · exact ⟨by simp [ih2.1], by simp [ih2.2.1], by simp [ih2.2.2]⟩
    · simp [h2]
    · simp [h2]

theorem expand_tilde_files (w : World) (files2 : String → FileState) (p : String) :
    expand_tilde { w with files := files2 } p = expand_tilde w p := rfl

theorem parse_config_file_without_interval (w : World) (files2 : String → FileState)
    (h : ∀ p, (w.files p).without_interval = (files2 p).without_interval) (prefs : Prefs) :
    parse_config_file { w with files := files2 } prefs = parse_config_file w prefs := by
  have hl := parse_files_loop_without_interval w files2 h (config_files w prefs)
    cfg_init cfg_init rfl
  have h1 : (parse_files { w with files := files2 } prefs cfg_init).1 =
      (parse_files w prefs cfg_init).1 := hl.1
  have h2 : (parse_files { w with files := files2 } prefs cfg_init).2.1.without_interval =
      (parse_files w prefs cfg_init).2.1.without_interval := hl.2.1
  have h3 : (parse_files { w with files := files2 } prefs cfg_init).2.2 =
      (parse_files w prefs cfg_init).2.2 := hl.2.2
  have g1 := congrArg Cfg.log_level h2
  have g2 := congrArg Cfg.log_file h2
  have g3 := congrArg Cfg.pid_file h2
  have g4 := congrArg Cfg.cache_file h2
  have g5 := congrArg Cfg.queue_length h2
  have g6 := congrArg Cfg.cache_interval h2
  have g7 := congrArg Cfg.mpd_host h2
  have g8 := congrArg Cfg.mpd_port h2
  have g9 := congrArg Cfg.mpd_timeout h2
  have g10 := congrArg Cfg.mpd_password h2
  have g11 := congrArg Cfg.as_username h2
  have g12 := congrArg Cfg.as_password h2
  have g13 := congrArg Cfg.as_password_hash h2
  simp only [Cfg.without_interval] at g1 g2 g3 g4 g5 g6 g7 g8 g9 g10 g11 g12 g13
  simp only [parse_config_file, h1, h3, g1, g2, g3, g4, g5, g6, g7, g8, g9, g10, g11, g12,
    g13, expand_tilde_files]

theorem parse_files_loop_frees_without_interval (w : World) (files2 : String → FileState)
    (h : ∀ p, (w.files p).without_interval = (files2 p).without_interval)
    (l : List String) :
    ∀ (c1 c2 : Cfg), c1.without_interval = c2.without_interval →
      parse_files_loop_frees { w with files := files2 } l c2 =
        parse_files_loop_frees w l c1 := by
  induction l with
  | nil =>
    intro c1 c2 _
    rfl
  | cons f rest ih =>
    intro c1 c2 hc
    obtain ⟨h1, h2⟩ := cfg_parse_without_interval w files2 h c1 c2 hc f
    simp only [parse_files_loop_frees, h1]
    rw [ih (cfg_parse w c1 f).2 (cfg_parse { w with files := files2 } c2 f).2 h2.symm]

theorem config_file_released_without_interval (w : World) (files2 : String → FileState)
    (h : ∀ p, (w.files p).without_interval = (files2 p).without_interval)
    (prefs : Prefs) :
    config_file_released { w with files := files2 } prefs cfg_init =
      config_file_released w prefs cfg_init := by
  unfold config_file_released
  cases prefs.config_file with
  | none => rfl
  | some f =>
    exact parse_files_loop_frees_without_interval w files2 h _ cfg_init cfg_init rfl

theorem parse_command_line_without_interval (w : World) (files2 : String → FileState)
    (h : ∀ p, (w.files p).without_interval = (files2 p).without_interval)
    (argv : Except String Options) (prefs : Prefs) :
    parse_command_line { w with files := files2 } argv prefs =
      parse_command_line w argv prefs := by
  unfold parse_command_line
  simp only [parse_config_file_without_interval w files2 h,
    config_file_released_without_interval w files2 h]
  rfl

/-- C19: `mpd.interval` is accepted with any value, negative ones included,
and has no effect: when two file systems hold, at every path, files that
differ only in the values assigned to `mpd.interval`, then with the same
command line, environment and prior Settings `init_preferences` ends the
same way, with the same Settings and the same events. -/
theorem interval_has_no_effect (w : World) (files2 : String → FileState)
    (argv : Except String Options) (prefs : Prefs)
    (h : ∀ p, (w.files p).without_interval = (files2 p).without_interval) :
    (init_preferences { w with files := files2 } argv prefs).result =
      (init_preferences w argv prefs).result ∧
    (init_preferences { w with files := files2 } argv prefs).prefs =
      (init_preferences w argv prefs).prefs ∧
    (init_preferences { w with files := files2 } argv prefs).trace =
      (init_preferences w argv prefs).trace ∧
    (∀ (cfg : Cfg) (v : Int), cfg_setopt cfg (.mpd_interval v) ≠ none) := by
  have hpc := parse_command_line_without_interval w files2 h argv prefs
  have hi : init_preferences { w with files := files2 } argv prefs =
      init_preferences w argv prefs := by
    unfold init_preferences
    simp only [hpc]
  rw [hi]
  exact ⟨rfl, rfl, rfl, fun cfg v => by simp [cfg_setopt]⟩

/-- C19 (witness): the file sets `mpd.interval = -5` in one file system and
`mpd.interval = 30` in the other; resolution succeeds in both with the same
Settings. -/
theorem interval_has_no_effect_witness :
    (init_preferences { negative_interval_world with files := other_interval_files }
      (.ok no_options) sample_prefs).result = .returned true ∧
    (init_preferences { negative_interval_world with files := other_interval_files }
      (.ok no_options) sample_prefs).prefs =
      (init_preferences negative_interval_world (.ok no_options) sample_prefs).prefs := by
  have h := interval_has_no_effect negative_interval_world other_interval_files
    (.ok no_options) sample_prefs (by
      intro p
      by_cases hp : p = "/etc/scmpc.conf"
      · subst hp
        decide
      · simp [negative_interval_world, negative_interval_files, other_interval_files, hp,
          FileState.without_interval])
  exact ⟨by decide, h.2.1⟩

/-! ### Release of the explicit path and the state a call leaves -/

theorem parse_files_loop_frees_first (w : World) (cfg : Cfg) (pre : List String) (f : String)
    (post : List String) (hpre : ∀ p ∈ pre, (cfg_parse w cfg p).1 = CFG_FILE_ERROR)
    (hf : (cfg_parse w cfg f).1 ≠ CFG_FILE_ERROR) :
    parse_files_loop_frees w (pre ++ f :: post) cfg = true := by
  induction pre with
  | nil =>
    simp only [List.nil_append, parse_files_loop_frees]
    split_ifs <;> rfl
  | cons g rest ih =>
    have hg := hpre g (by simp)
    have ih2 := ih (fun p hp => hpre p (by simp [hp]))
    have hne : ¬ (CFG_FILE_ERROR = CFG_PARSE_ERROR) := by decide
    simp only [List.cons_append, parse_files_loop_frees, hg, hne, if_false, if_true,
      cfg_parse_file_error_cfg w cfg g hg]
    exact ih2

theorem parse_files_loop_frees_all_missing (w : World) (cfg : Cfg) (l : List String)
    (h : ∀ p ∈ l, (cfg_parse w cfg p).1 = CFG_FILE_ERROR) :
    parse_files_loop_frees w l cfg = false := by
  induction l with
  | nil => rfl
  | cons g rest ih =>
    have hg := h g (by simp)
    have hne : ¬ (CFG_FILE_ERROR = CFG_PARSE_ERROR) := by decide
    simp only [parse_files_loop_frees, hg, hne, if_false, if_true,
      cfg_parse_file_error_cfg w cfg g hg]
    exact ih (fun p hp => h p (by simp [hp]))

/-- With an explicit path `f`, the string of `config_file` is released
exactly when `f` is not missing. -/
theorem config_file_released_explicit (w : World) (prefs : Prefs) (cfg : Cfg) (f : String)
    (h : prefs.config_file = some f) :
    (config_file_released w prefs cfg = true ↔ (cfg_parse w cfg f).1 ≠ CFG_FILE_ERROR) := by
  have hl : config_files w prefs = [f, "", ""] := by simp [config_files, h]
  simp only [config_file_released, h, hl]
  by_cases hf : (cfg_parse w cfg f).1 = CFG_FILE_ERROR
  · rw [parse_files_loop_frees_all_missing w cfg [f, "", ""] (by
      intro p hp
      simp only [List.mem_cons, List.mem_singleton, List.not_mem_nil, or_false, or_self] at hp
      rcases hp with rfl | rfl
      · exact hf
      · rw [cfg_parse_empty])]
    simp [hf]
  · have h1 : parse_files_loop_frees w [f, "", ""] cfg = true :=
      parse_files_loop_frees_first w cfg [] f ["", ""] (by simp) hf
    rw [h1]
    simp [hf]

theorem config_file_released_null (w : World) (prefs : Prefs) (cfg : Cfg)
    (h : prefs.config_file = none) : config_file_released w prefs cfg = false := by
  simp [config_file_released, h]

/-- When the search reaches a candidate that is not missing, the string of an
explicit `config_file` has been released. -/
theorem config_file_released_of_used (w : World) (prefs : Prefs) (cfg : Cfg)
    (pre : List String) (f : String) (post : List String)
    (hc : config_files w prefs = pre ++ f :: post)
    (hpre : ∀ p ∈ pre, (cfg_parse w cfg p).1 = CFG_FILE_ERROR)
    (hf : (cfg_parse w cfg f).1 ≠ CFG_FILE_ERROR) :
    config_file_released w prefs cfg = prefs.config_file.isSome := by
  unfold config_file_released
  cases h : prefs.config_file with
  | none => rfl
  | some g =>
    simp only [Option.isSome_some]
    rw [hc]
    exact parse_files_loop_frees_first w cfg pre f post hpre hf

theorem init_preferences_released (w : World) (argv : Except String Options) (prefs : Prefs) :
    (init_preferences w argv prefs).released = (parse_command_line w argv prefs).released := by
  by_cases h : (parse_command_line w argv prefs).result = .returned true
  · simp only [init_preferences, h]
    cases w.MPD_PORT <;> rfl
  · rw [init_preferences_of_not_success w argv prefs h]

theorem parse_command_line_released (w : World) (o : Options) (prefs : Prefs)
    (hv : o.version = false) :
    (parse_command_line w (.ok o) prefs).released =
      config_file_released w { prefs with config_file := o.conf_file } cfg_init := by
  simp only [parse_command_line, hv]
  cases hfile : (parse_config_file w { prefs with config_file := o.conf_file }).1 <;>
    cases hq : o.quiet <;> cases hd : o.debug <;> cases hk : o.dokill <;> simp <;>
    (split <;> rfl)

/-! ### Validation through a `gint` -/

theorem to_gint_of_range (x : Int) (h1 : -2147483648 ≤ x) (h2 : x < 2147483648) :
    to_gint x = x := by
  unfold to_gint
  omega

/-- C4: `cf_validate_num` stores the option value in a `gint` and rejects it
if and only if that `gint` is negative, and so does libconfuse for an
assignment to `queue_length`, `cache_interval`, `mpd.port` or `mpd.timeout`.
For a value in the range of `gint` this is: if and only if the value is
negative. Outside that range it is not: 4294967295 is rejected and
-4294967296 is accepted (the file is parsed and `mpd_port` becomes 0).
Whenever the file that the search reaches makes the validator reject one of
the four keys, `parse_config_file` fails and assigns no field; with an
explicit path the string of `config_file` has then been released. -/
theorem validator_reads_gint (w : World) (prefs : Prefs) :
    (∀ x : Int, cf_validate_num x ≠ 0 ↔ to_gint x < 0) ∧
    (∀ x : Int, -2147483648 ≤ x → x < 2147483648 → (cf_validate_num x ≠ 0 ↔ x < 0)) ∧
    cf_validate_num 4294967295 = -1 ∧
    cf_validate_num (-4294967296) = 0 ∧
    (∀ (cfg : Cfg) (x : Int),
      (cfg_setopt cfg (.queue_length x) = none ↔ to_gint x < 0) ∧
      (cfg_setopt cfg (.cache_interval x) = none ↔ to_gint x < 0) ∧
      (cfg_setopt cfg (.mpd_port x) = none ↔ to_gint x < 0) ∧
      (cfg_setopt cfg (.mpd_timeout x) = none ↔ to_gint x < 0)) ∧
    (∀ (pre : List String) (f : String) (post : List String) (ss : List Setting) (x : Int),
      config_files w prefs = pre ++ f :: post →
      (∀ p ∈ pre, (cfg_parse w cfg_init p).1 = CFG_FILE_ERROR) →
      f ≠ "" → w.files f = .text ss → to_gint x < 0 →
      (Setting.queue_length x ∈ ss ∨ Setting.cache_interval x ∈ ss ∨
        Setting.mpd_port x ∈ ss ∨ Setting.mpd_timeout x ∈ ss) →
      (parse_config_file w prefs).1 = false ∧
      { (parse_config_file w prefs).2.1 with config_file := none } =
        { prefs with config_file := none } ∧
      (prefs.config_file = none → (parse_config_file w prefs).2.1 = prefs) ∧
      config_file_released w prefs cfg_init = prefs.config_file.isSome) ∧
    (parse_config_file large_queue_world sample_prefs).1 = false ∧
    (parse_config_file wrapped_port_world sample_prefs).1 = true ∧
    (parse_config_file wrapped_port_world sample_prefs).2.1.mpd_port = 0 := by
  have hset : ∀ (cfg : Cfg) (x : Int),
      (cfg_setopt cfg (.queue_length x) = none ↔ to_gint x < 0) ∧
      (cfg_setopt cfg (.cache_interval x) = none ↔ to_gint x < 0) ∧
      (cfg_setopt cfg (.mpd_port x) = none ↔ to_gint x < 0) ∧
      (cfg_setopt cfg (.mpd_timeout x) = none ↔ to_gint x < 0) := by
    intro cfg x
    have hv := cf_validate_num_ne_zero x
    by_cases hx : to_gint x < 0
    · have h1 : cf_validate_num x ≠ 0 := hv.2 hx
      simp [cfg_setopt, h1, hx]
    · have h1 : cf_validate_num x = 0 := by
        by_contra h2
        exact hx (hv.1 h2)
      simp [cfg_setopt, h1, hx]
  refine ⟨cf_validate_num_ne_zero, ?_, by decide, by decide, hset, ?_, by decide, by decide,
    by decide⟩
  · intro x h1 h2
    rw [cf_validate_num_ne_zero, to_gint_of_range x h1 h2]
  · intro pre f post ss x hc hpre hne hf hx hmem
    have hnone : cfg_setopts cfg_init ss = none := by
      rcases hmem with h | h | h | h
      · exact cfg_setopts_none_of_mem _ (fun c => (hset c x).1.2 hx) ss h cfg_init
      · exact cfg_setopts_none_of_mem _ (fun c => (hset c x).2.1.2 hx) ss h cfg_init
      · exact cfg_setopts_none_of_mem _ (fun c => (hset c x).2.2.1.2 hx) ss h cfg_init
      · exact cfg_setopts_none_of_mem _ (fun c => (hset c x).2.2.2.2 hx) ss h cfg_init
    have hpf := parse_files_used w prefs cfg_init pre f post ss hc hpre hne hf
    rw [hnone] at hpf
    have hfail : (parse_config_file w prefs).1 = false := by
      unfold parse_config_file
      simp [hpf]
    have heq := parse_config_file_failure w prefs hfail
    have hcp : (cfg_parse w cfg_init f).1 ≠ CFG_FILE_ERROR := by
      rw [cfg_parse_text w cfg_init f ss hne hf, hnone]
      decide
    refine ⟨hfail, by rw [heq], fun _ => heq, ?_⟩
    exact config_file_released_of_used w prefs cfg_init pre f post hc hpre hcp

/-- C4 (witness): the file found at the system-wide location sets
`queue_length = -1`; parsing it fails, Settings (`queue_length` included) is
as before, and no string of Settings has been released. -/
theorem validator_reads_gint_witness :
    (parse_config_file negative_queue_world sample_prefs).1 = false ∧
    (parse_config_file negative_queue_world sample_prefs).2.1 = sample_prefs ∧
    config_file_released negative_queue_world sample_prefs cfg_init = false :=
  have h := (validator_reads_gint negative_queue_world sample_prefs).2.2.2.2.2.1
    ["/home/u/.scmpcrc", "/home/u/.scmpc/scmpc.conf"] "/etc/scmpc.conf" []
    [.log_file "/tmp/log", .queue_length (-1)] (-1)
    (by decide) (by decide) (by decide) (by decide) (by decide) (by decide)
  ⟨h.1, h.2.2.1 rfl, h.2.2.2⟩

/-! ### Sixteen-bit port and timeout: the resolved values -/

/-- C18: on every successful resolution `mpd_port` and `mpd_timeout` lie in
0..65535. With `MPD_PORT` set to `s` the port is the integer `strtol` reads
from `s` modulo `2 ^ 16` (equal to that integer exactly when it lies in
0..65535, so a negative one is never kept). Otherwise, for the file the
search used, a port `p` that the file sets has passed validation (it is not
negative as a `gint`) and the resolved port is `p` modulo `2 ^ 16`; when
`p >= 0` it equals `p` if and only if `p` is below 65536. The same holds
for the timeout. -/
theorem port_timeout_sixteen_bits (w : World) (o : Options) (prefs : Prefs)
    (hsucc : (init_preferences w (.ok o) prefs).result = .returned true) :
    (init_preferences w (.ok o) prefs).prefs.mpd_port < 65536 ∧
    (init_preferences w (.ok o) prefs).prefs.mpd_timeout < 65536 ∧
    (∀ s, w.MPD_PORT = some s →
      ((init_preferences w (.ok o) prefs).prefs.mpd_port : Int) = strtol s % 65536 ∧
      (((init_preferences w (.ok o) prefs).prefs.mpd_port : Int) = strtol s ↔
        0 ≤ strtol s ∧ strtol s < 65536)) ∧
    (∀ (pre : List String) (f : String) (post : List String) (ss : List Setting),
      config_files w { prefs with config_file := o.conf_file } = pre ++ f :: post →
      (∀ p ∈ pre, (cfg_parse w cfg_init p).1 = CFG_FILE_ERROR) →
      f ≠ "" → w.files f = .text ss →
      (∀ p : Int, last_value (Setting.value_for .mpd_port) ss = some (.num p) →
        w.MPD_PORT = none →
        0 ≤ to_gint p ∧
        ((init_preferences w (.ok o) prefs).prefs.mpd_port : Int) = p % 65536 ∧
        (0 ≤ p →
          (((init_preferences w (.ok o) prefs).prefs.mpd_port : Int) = p ↔ p < 65536))) ∧
      (∀ t : Int, last_value (Setting.value_for .mpd_timeout) ss = some (.num t) →
        0 ≤ to_gint t ∧
        ((init_preferences w (.ok o) prefs).prefs.mpd_timeout : Int) = t % 65536 ∧
        (0 ≤ t →
          (((init_preferences w (.ok o) prefs).prefs.mpd_timeout : Int) = t ↔
            t < 65536)))) := by
  rw [init_preferences_result] at hsucc
  obtain ⟨_, hfile, _, _⟩ := parse_command_line_success w o prefs hsucc
  obtain ⟨htime, hport0, hport1⟩ := init_preferences_port_timeout w o prefs hsucc
  obtain ⟨hP1, hP2⟩ := parse_config_file_port_timeout w _ hfile
  refine ⟨?_, ?_, ?_, ?_⟩
  · cases hp : w.MPD_PORT with
    | none =>
      rw [hport0 hp, hP1]
      exact to_gushort_lt _
    | some s =>
      rw [hport1 s hp]
      exact to_gushort_lt _
  · rw [htime, hP2]
    exact to_gushort_lt _
  · intro s hp
    rw [hport1 s hp]
    exact ⟨to_gushort_cast _, to_gushort_eq_iff _⟩
  · intro pre f post ss hc hpre hne hf
    obtain ⟨c, hs⟩ := parse_config_file_success_of_used w _ pre f post ss hc hpre hne hf hfile
    have heq := parse_config_file_eq_of_used w _ pre f post ss c hc hpre hne hf hs
    have hget := cfg_setopts_get ss cfg_init c hs
    refine ⟨?_, ?_⟩
    · intro p hv hp
      have h0 := (accepted_port_timeout_nonneg ss cfg_init c hs p).1 hv
      have hc1 := hget .mpd_port
      rw [hv] at hc1
      simp only [Cfg.get, Option.getD_some, Value.num.injEq] at hc1
      have h1 : (init_preferences w (.ok o) prefs).prefs.mpd_port = to_gushort p := by
        rw [hport0 hp, heq]
        simp only [hc1]
      rw [h1]
      refine ⟨h0, to_gushort_cast _, ?_⟩
      intro hp0
      rw [to_gushort_eq_iff]
      exact ⟨fun h => h.2, fun h => ⟨hp0, h⟩⟩
    · intro t hv
      have h0 := (accepted_port_timeout_nonneg ss cfg_init c hs t).2 hv
      have hc1 := hget .mpd_timeout
      rw [hv] at hc1
      simp only [Cfg.get, Option.getD_some, Value.num.injEq] at hc1
      have h1 : (init_preferences w (.ok o) prefs).prefs.mpd_timeout = to_gushort t := by
        rw [htime, heq]
        simp only [hc1]
      rw [h1]
      refine ⟨h0, to_gushort_cast _, ?_⟩
      intro ht0
      rw [to_gushort_eq_iff]
      exact ⟨fun h => h.2, fun h => ⟨ht0, h⟩⟩

/-- C18 (witness): the file sets `mpd.port = 70000` and the resolved port is
70000 modulo `2 ^ 16`, that is 4464; with `MPD_PORT=-1` resolution succeeds
and the resolved port is -1 modulo `2 ^ 16`, that is 65535. -/
theorem port_timeout_sixteen_bits_witness :
    ((init_preferences sample_world (.ok no_options) sample_prefs).prefs.mpd_port : Int) =
      70000 % 65536 ∧
    (70000 : Int) % 65536 = 4464 ∧
    (init_preferences minus_one_port_world (.ok no_options) sample_prefs).result =
      .returned true ∧
    ((init_preferences minus_one_port_world (.ok no_options) sample_prefs).prefs.mpd_port :
      Int) = strtol "-1" % 65536 ∧
    strtol "-1" % 65536 = 65535 :=
  ⟨((port_timeout_sixteen_bits sample_world no_options sample_prefs (by decide)).2.2.2
      ["/home/u/.scmpcrc", "/home/u/.scmpc/scmpc.conf"] "/etc/scmpc.conf" []
      [.log_level "debug", .pid_file "~/scmpc.pid", .mpd_port 70000]
      (by decide) (by decide) (by decide) (by decide)).1 70000 (by decide) rfl |>.2.1,
   by decide, by decide,
   ((port_timeout_sixteen_bits minus_one_port_world no_options sample_prefs
      (by decide)).2.2.1 "-1" rfl).1,
   by decide⟩

theorem config_file_released_of_success (w : World) (prefs : Prefs)
    (hok : (parse_config_file w prefs).1 = true) :
    config_file_released w prefs cfg_init = prefs.config_file.isSome := by
  have h1 : (parse_files w prefs cfg_init).1 = true := by
    unfold parse_config_file at hok
    by_cases h2 : (parse_files w prefs cfg_init).1 = false
    · simp [h2] at hok
    · simpa using h2
  unfold config_file_released
  cases h : prefs.config_file with
  | none => rfl
  | some g => exact parse_files_loop_frees_of_success w _ cfg_init h1

/-! ### What a failed call leaves -/

/-- C5 (counterexample): with `--quiet --debug --pid-file /tmp/x.pid`,
`init_preferences` returns failure, yet `pid_file` holds "/tmp/x.pid", which
is neither its value before the call nor the value the file layer produced. -/
theorem conflict_leaves_pid_file_written :
    (init_preferences sample_world (.ok conflict_options) sample_prefs).result =
      .returned false ∧
    (init_preferences sample_world (.ok conflict_options) sample_prefs).prefs.pid_file =
      some "/tmp/x.pid" ∧
    sample_prefs.pid_file = some "/old/pid" ∧
    (parse_config_file sample_world sample_prefs).2.1.pid_file = some "/home/u/scmpc.pid" := by
  decide

/-- C5 (amended): whenever `init_preferences` returns failure, one of three
things happened. Option parsing failed: Settings is unchanged. The file layer
failed: no field other than `config_file` has changed; `config_file` was
reassigned before the file layer ran (NULL without `--config-file`, a copy of
the argument with it), and when the explicit file is not missing, its string
has been released by the time the call returns. The CLI layer failed on the
`--quiet`/`--debug` conflict: Settings is what the file layer produced, so
`log_level` and `fork` hold the values they had before the CLI flags were
applied, except that `pid_file` already holds the `--pid-file` argument when
one was given. -/
theorem failure_leaves_settings (w : World) (argv : Except String Options) (prefs : Prefs) :
    (∀ msg, argv = .error msg →
      (init_preferences w argv prefs).result = .returned false ∧
      (init_preferences w argv prefs).prefs = prefs ∧
      (init_preferences w argv prefs).released = false) ∧
    (∀ o, argv = .ok o → o.version = false →
      (parse_config_file w { prefs with config_file := o.conf_file }).1 = false →
      (init_preferences w argv prefs).result = .returned false ∧
      { (init_preferences w argv prefs).prefs with config_file := none } =
        { prefs with config_file := none } ∧
      (o.conf_file = none →
        (init_preferences w argv prefs).prefs = { prefs with config_file := none } ∧
        (init_preferences w argv prefs).released = false) ∧
      (∀ f, o.conf_file = some f →
        (init_preferences w argv prefs).prefs.config_file ≠ none ∧
        ((init_preferences w argv prefs).released = true ↔
          (cfg_parse w cfg_init f).1 ≠ CFG_FILE_ERROR) ∧
        ((init_preferences w argv prefs).released = false →
          (init_preferences w argv prefs).prefs = { prefs with config_file := some f }))) ∧
    (∀ o, argv = .ok o → o.version = false →
      (parse_config_file w { prefs with config_file := o.conf_file }).1 = true →
      o.quiet = true → o.debug = true →
      (init_preferences w argv prefs).result = .returned false ∧
      (init_preferences w argv prefs).prefs.log_level =
        (parse_config_file w { prefs with config_file := o.conf_file }).2.1.log_level ∧
      (init_preferences w argv prefs).prefs.fork =
        (parse_config_file w { prefs with config_file := o.conf_file }).2.1.fork ∧
      (∀ p, o.pid_file = some p →
        (init_preferences w argv prefs).prefs =
          { (parse_config_file w { prefs with config_file := o.conf_file }).2.1 with
            pid_file := some p }) ∧
      (o.pid_file = none →
        (init_preferences w argv prefs).prefs =
          (parse_config_file w { prefs with config_file := o.conf_file }).2.1) ∧
      (init_preferences w argv prefs).released = o.conf_file.isSome) ∧
    ((init_preferences w argv prefs).result = .returned false →
      (∃ msg, argv = .error msg) ∨
      ∃ o, argv = .ok o ∧ o.version = false ∧
        ((parse_config_file w { prefs with config_file := o.conf_file }).1 = false ∨
          (o.quiet = true ∧ o.debug = true))) := by
  refine ⟨?_, ?_, ?_, ?_⟩
  · rintro msg rfl
    rw [init_preferences_of_not_success _ _ _ (by simp [parse_command_line_error])]
    simp [parse_command_line_error]
  · rintro o rfl hv hfile
    have h := parse_command_line_file_failure w o prefs hv hfile
    have hr := parse_command_line_released w o prefs hv
    rw [init_preferences_of_not_success _ _ _ (by rw [h.1]; simp)]
    refine ⟨h.1, by rw [h.2], ?_, ?_⟩
    · intro hcf
      refine ⟨by rw [h.2, hcf], ?_⟩
      rw [hr]
      exact config_file_released_null w _ cfg_init hcf
    · intro f hcf
      refine ⟨by rw [h.2]; simp [hcf], ?_, ?_⟩
      · rw [hr]
        exact config_file_released_explicit w _ cfg_init f hcf
      · intro _
        rw [h.2, hcf]
  · rintro o rfl hv hfile hq hd
    have h := parse_command_line_conflict w o prefs hv hfile hq hd
    have hr := parse_command_line_released w o prefs hv
    rw [init_preferences_of_not_success _ _ _ (by rw [h.1]; simp)]
    refine ⟨h.1, ?_, ?_, ?_, ?_, ?_⟩
    · rw [h.2]; cases o.pid_file <;> rfl
    · rw [h.2]; cases o.pid_file <;> rfl
    · intro p hp
      rw [h.2, hp]
    · intro hp
      rw [h.2, hp]
    · rw [hr, config_file_released_of_success w _ hfile]
  · intro h
    rw [init_preferences_result] at h
    cases argv with
    | error msg => exact Or.inl ⟨msg, rfl⟩
    | ok o =>
      right
      refine ⟨o, rfl, ?_⟩
      cases hv : o.version with
      | true => simp [parse_command_line, hv] at h
      | false =>
        refine ⟨rfl, ?_⟩
        cases hfile : (parse_config_file w { prefs with config_file := o.conf_file }).1 with
        | false => exact Or.inl rfl
        | true =>
          right
          cases hq : o.quiet <;> cases hd : o.debug <;>
            simp [parse_command_line, hv, hfile, hq, hd] at h ⊢ <;>
            (split at h <;> try split at h) <;> simp at h

/-- C5 (witness): an explicit config file that does not exist makes the file
layer fail; nothing has been released and Settings is as before,
`config_file` apart. -/
theorem failure_leaves_settings_witness :
    (init_preferences sample_world
      (.ok { no_options with conf_file := some "/nonexistent.conf" }) sample_prefs).result =
      .returned false ∧
    (init_preferences sample_world
      (.ok { no_options with conf_file := some "/nonexistent.conf" }) sample_prefs).released =
      false ∧
    (init_preferences sample_world
      (.ok { no_options with conf_file := some "/nonexistent.conf" }) sample_prefs).prefs =
      { sample_prefs with config_file := some "/nonexistent.conf" } :=
  have h := (failure_leaves_settings sample_world
    (.ok { no_options with conf_file := some "/nonexistent.conf" }) sample_prefs).2.1
    { no_options with conf_file := some "/nonexistent.conf" } rfl (by decide) (by decide)
  ⟨h.1, by decide, (h.2.2.2 "/nonexistent.conf" rfl).2.2 (by decide)⟩

/-! ### The config file path after resolution -/

/-- C17 (counterexample): without `--config-file`, resolution succeeds by
parsing the default candidate "/etc/scmpc.conf", and `config_file` is NULL
afterwards, not that path. -/
theorem config_file_not_the_candidate :
    (init_preferences sample_world (.ok no_options) sample_prefs).result = .returned true ∧
    (cfg_parse sample_world cfg_init "/etc/scmpc.conf").1 = CFG_SUCCESS ∧
    Event.cfg_parse "/etc/scmpc.conf" ∈
      (init_preferences sample_world (.ok no_options) sample_prefs).trace ∧
    (init_preferences sample_world (.ok no_options) sample_prefs).prefs.config_file = none ∧
    (init_preferences sample_world (.ok no_options) sample_prefs).prefs.config_file ≠
      some "/etc/scmpc.conf" := by
  decide

/-- C17 (amended): after every successful resolution without `--config-file`,
`config_file` is NULL, whichever default candidate was found and parsed, and
no string of Settings has been released. With `--config-file`, `config_file`
is not NULL, and the string it points to has been released by
`parse_files`. -/
theorem config_file_resolved (w : World) (o : Options) (prefs : Prefs)
    (hsucc : (init_preferences w (.ok o) prefs).result = .returned true) :
    (o.conf_file = none →
      (init_preferences w (.ok o) prefs).prefs.config_file = none ∧
      (init_preferences w (.ok o) prefs).released = false) ∧
    (∀ f, o.conf_file = some f →
      (init_preferences w (.ok o) prefs).prefs.config_file ≠ none ∧
      (init_preferences w (.ok o) prefs).released = true) := by
  rw [init_preferences_result] at hsucc
  obtain ⟨hv, hfile, _, hprefs⟩ := parse_command_line_success w o prefs hsucc
  have hcf := (init_preferences_frame w (.ok o) prefs).2.2.2
  rw [hprefs] at hcf
  simp only [parse_config_file_config_file] at hcf
  have hr : (init_preferences w (.ok o) prefs).released = o.conf_file.isSome := by
    rw [init_preferences_released, parse_command_line_released w o prefs hv,
      config_file_released_of_success w _ hfile]
  refine ⟨?_, ?_⟩
  · intro h
    exact ⟨by rw [hcf, h], by rw [hr, h]; rfl⟩
  · intro f h
    exact ⟨by rw [hcf, h]; simp, by rw [hr, h]; rfl⟩

/-- C17 (witness): the file without assignments is found at the system-wide
location; `config_file` is NULL after the successful resolution. -/
theorem config_file_resolved_witness :
    (init_preferences empty_file_world (.ok no_options) sample_prefs).prefs.config_file =
      none ∧
    (init_preferences empty_file_world (.ok no_options) sample_prefs).released = false :=
  (config_file_resolved empty_file_world no_options sample_prefs (by decide)).1 rfl


/-! ### `--version` -/

/-- C13 (counterexample): the test of `version` comes after the test of what
`g_option_context_parse` returned. A command line such as `--version --bogus`
is rejected by the option parser; the call then prints the parser's message
with `g_print` and returns FALSE: it does not exit, and the identification
text is not printed. -/
theorem rejected_command_line_prints_no_version :
    (init_preferences malformed_world (.error "Unknown option --bogus") sample_prefs).result =
      .returned false ∧
    (init_preferences malformed_world (.error "Unknown option --bogus") sample_prefs).result ≠
      .exited 0 ∧
    (init_preferences malformed_world (.error "Unknown option --bogus") sample_prefs).trace =
      [Event.g_print "Unknown option --bogus"] ∧
    Event.puts malformed_world.PACKAGE_STRING ∉
      (init_preferences malformed_world (.error "Unknown option --bogus") sample_prefs).trace := by
  decide

/-- C13 (amended): for every command line that `g_option_context_parse`
accepts and that sets `version`, whatever the other options, the files and the
environment, the run prints `PACKAGE_STRING` and the three fixed lines, in
this order and nothing else, and exits with status 0; Settings is as before,
nothing has been released, and there is no `cfg_parse`, no `getenv`, no
`kill_scmpc` and no `g_print`. -/
theorem version_exits_first (w : World) (o : Options) (prefs : Prefs)
    (hv : o.version = true) :
    (init_preferences w (.ok o) prefs).result = .exited 0 ∧
    (init_preferences w (.ok o) prefs).prefs = prefs ∧
    (init_preferences w (.ok o) prefs).released = false ∧
    (init_preferences w (.ok o) prefs).trace =
      [Event.puts w.PACKAGE_STRING,
       Event.puts "An Audioscrobbler client for MPD.",
       Event.puts "Copyright 2009-2013 Christoph Mende <mende.christoph@gmail.com>",
       Event.puts "Based on Jonathan Coome's work on scmpc"] ∧
    (∀ f, Event.cfg_parse f ∉ (init_preferences w (.ok o) prefs).trace) ∧
    (∀ n, Event.getenv n ∉ (init_preferences w (.ok o) prefs).trace) ∧
    (∀ p, Event.kill_scmpc p ∉ (init_preferences w (.ok o) prefs).trace) ∧
    (∀ m, Event.g_print m ∉ (init_preferences w (.ok o) prefs).trace) := by
  have h : init_preferences w (.ok o) prefs = ⟨.exited 0, prefs, version_text w, false⟩ := by
    rw [init_preferences_of_not_success w _ prefs (by simp [parse_command_line, hv])]
    simp [parse_command_line, hv]
  rw [h]
  refine ⟨rfl, rfl, rfl, rfl, ?_, ?_, ?_, ?_⟩
  · intro f hf
    simp [version_text] at hf
  · intro n hn
    simp [version_text] at hn
  · intro p hp
    simp [version_text] at hp
  · intro m hm
    simp [version_text] at hm

/-- C13 (witness): every config file is malformed and the command line is
`--version --kill --quiet --debug --pid-file /tmp/x.pid`: the run prints the
four lines, exits with status 0 and leaves Settings untouched. -/
theorem version_exits_first_witness :
    (init_preferences malformed_world (.ok version_options) sample_prefs).result =
      .exited 0 ∧
    (init_preferences malformed_world (.ok version_options) sample_prefs).prefs =
      sample_prefs ∧
    (init_preferences malformed_world (.ok version_options) sample_prefs).trace =
      [Event.puts "scmpc 0.4.1",
       Event.puts "An Audioscrobbler client for MPD.",
       Event.puts "Copyright 2009-2013 Christoph Mende <mende.christoph@gmail.com>",
       Event.puts "Based on Jonathan Coome's work on scmpc"] :=
  have h := version_exits_first malformed_world version_options sample_prefs rfl
  ⟨h.1, h.2.1, h.2.2.2.1⟩

end Scmpc
